import Mathlib

/-!
# solana-web3-js: unit conversion, transfer validation and cluster metadata

A shallow embedding of `src/utils.js`, `src/solana-web3.js` and `src/token.js`.

ECMAScript Numbers are IEEE-754 binary64 values.  A finite Number is kept as an
integer multiple of `2^-1074` (the smallest subnormal), which makes every finite
double a unique pair of a sign and a natural number.  Strings that hold numerals
never appear as text between two library calls: they are represented by the
exact decimal value they denote.
-/

namespace SolanaWeb3Js

/-! ## ECMAScript Numbers -/

/-- An ECMAScript Number.  `fin neg n` is the double `(-1)^neg * n / 2^1074`. -/
inductive JSNumber where
  | nan
  | inf (neg : Bool)
  | fin (neg : Bool) (n : Nat)
  deriving DecidableEq, Repr

/-- Exponent of the scaling: a finite double with numerator `n` has value `n / 2^1074`. -/
@[irreducible] def subnormalBits : Nat := 1074

/-- Numerators at or above this bound are beyond the largest finite double: the value
`2^1024`, scaled. -/
def overflowBound : Nat := 2 ^ (1024 + subnormalBits)

/-- Number of binary digits of `m`, counted with at most `fuel` steps. -/
def bitLen : Nat → Nat → Nat
  | 0, _ => 0
  | fuel + 1, m => if m = 0 then 0 else bitLen fuel (m / 2) + 1

/-- Spacing of the doubles around the scaled magnitude `t`: 53 significant bits are kept. -/
def binadeUnit (t : Nat) : Nat := 2 ^ (bitLen t t - 53)

/-- Round the non-negative ratio `p / q` to the nearest double numerator, ties to even. -/
def roundNearestEven (p q : Nat) : Nat :=
  let a := p * 2 ^ subnormalBits
  let u := binadeUnit (a / q)
  let b := q * u
  let s := a / b
  let r := a % b
  let s1 := if 2 * r < b then s else if b < 2 * r then s + 1 else if s % 2 = 0 then s else s + 1
  s1 * u

/-- The Number nearest to `(-1)^neg * p / q`; magnitudes that round to `2^1024` become infinite. -/
def JSNumber.ofRatio (neg : Bool) (p q : Nat) : JSNumber :=
  let n := roundNearestEven p q
  if overflowBound ≤ n then .inf neg else .fin neg n

/-- The Number nearest to the natural number `m` (what a numeric literal denotes). -/
def JSNumber.ofNat (m : Nat) : JSNumber := JSNumber.ofRatio false m 1

/-- Whether a Number is well formed: the numerator of a finite double is a multiple of the
spacing of its binade and lies below the overflow bound. -/
def JSNumber.isDouble : JSNumber → Bool
  | .fin _ n => decide (n % binadeUnit n = 0) && decide (n < overflowBound)
  | _ => true

/-- Whether a Number is `+0`, positive or `+Infinity`: its sign bit is clear and it is not NaN. -/
def JSNumber.signClear : JSNumber → Bool
  | .fin neg _ => !neg
  | .inf neg => !neg
  | .nan => false

/-- The relational operator `x < y` on Numbers (false as soon as one side is NaN). -/
def JSNumber.lt : JSNumber → JSNumber → Bool
  | .nan, _ => false
  | _, .nan => false
  | .inf a, .inf b => a && !b
  | .inf a, .fin _ _ => a
  | .fin _ _, .inf b => !b
  | .fin false n, .fin false m => decide (n < m)
  | .fin false _, .fin true _ => false
  | .fin true n, .fin false m => decide (0 < n ∨ 0 < m)
  | .fin true n, .fin true m => decide (m < n)

/-- The relational operator `x > y`, which ECMAScript evaluates as `y < x`. -/
def JSNumber.gt (x y : JSNumber) : Bool := JSNumber.lt y x

/-- Whether `isNaN` holds of a Number. -/
def JSNumber.isNaN : JSNumber → Bool
  | .nan => true
  | _ => false

/-! ## Decimal values: numeric strings and bignumber.js values -/

/-- An exact decimal: what a numeric string denotes and what a bignumber.js value holds.
`fin neg c k` is `(-1)^neg * c / 10^k`. -/
inductive Decimal where
  | nan
  | inf (neg : Bool)
  | fin (neg : Bool) (c : Nat) (k : Nat)
  deriving DecidableEq, Repr

/-- Number of decimal digits of `m`, counted with at most `fuel` steps. -/
def decLen : Nat → Nat → Nat
  | 0, _ => 0
  | fuel + 1, m => if m = 0 then 0 else decLen fuel (m / 10) + 1

/-- For a numerator below one (`n < 2^1074`), the number of zeros that follow the decimal
point before the first significant digit, searched with at most `fuel` steps from `j`. -/
def leadingZeros : Nat → Nat → Nat → Nat
  | 0, _, j => j
  | fuel + 1, n, j => if 2 ^ subnormalBits ≤ n * 10 ^ (j + 1) then j else leadingZeros fuel n (j + 1)

/-- The decimal exponent `N` of a positive double: `10^(N-1) ≤ n / 2^1074 < 10^N`. -/
def decimalExponent (n : Nat) : Int :=
  if 2 ^ subnormalBits ≤ n then (decLen 310 (n / 2 ^ subnormalBits) : Int)
  else - (leadingZeros 330 n 0 : Int)

/-- The decimal `s * 10^e` as numerator and denominator. -/
def scaledNum (s : Nat) (e : Int) : Nat := s * 10 ^ e.toNat

/-- Denominator of a decimal with exponent `e`. -/
def scaledDen (e : Int) : Nat := 10 ^ (-e).toNat

/-- Whether the decimal `s * 10^e` reads back as the double with numerator `n`. -/
def readsBack (n s : Nat) (e : Int) : Bool :=
  decide (0 < s) && decide (roundNearestEven (scaledNum s e) (scaledDen e) = n)

/-- Candidates for the digits of `n / 2^1074` at decimal exponent `e`: the integer below
`n / (2^1074 * 10^e)` and the one above, keeping those that read back as `n`, the closer
one first (the even one on a tie). -/
def digitsAt (n : Nat) (e : Int) : Option Nat :=
  let num := n * scaledDen e
  let den := 2 ^ subnormalBits * 10 ^ e.toNat
  let lo := num / den
  let r := num % den
  let okLo := readsBack n lo e
  let okHi := readsBack n (lo + 1) e
  if okLo && okHi then
    (if 2 * r < den then some lo else if den < 2 * r then some (lo + 1)
     else if lo % 2 = 0 then some lo else some (lo + 1))
  else if okLo then some lo
  else if okHi then some (lo + 1)
  else none

/-- Search, from decimal exponent `e` downwards, for the first exponent at which some digit
string reads back as `n`: the digit string found is the shortest one. -/
def shortestFrom : Nat → Nat → Int → Option (Nat × Int)
  | 0, _, _ => none
  | fuel + 1, n, e =>
    match digitsAt n e with
    | some s => some (s, e)
    | none => shortestFrom fuel n (e - 1)

/-- The operation `Number::toString(x, 10)` for a positive finite double, as the decimal the
string denotes: the digit string `s` and exponent `e` with the fewest digits such that
`s * 10^e` reads back as `x`.  The search starts at the decimal exponent `N` of `x` itself,
where the only candidate is the single digit `1` (the power of ten `10^N`, the shortest
decimal of a double just below it, such as `0.000001`), and then tries one to seventeen digits;
a digit string found this way does not end in a zero, so a negative exponent counts the
decimal places that are printed.  Seventeen significant digits always suffice; the exact
expansion `n * 5^1074 / 10^1074` stands behind the search. -/
def shortestDecimal (n : Nat) : Nat × Nat :=
  match shortestFrom 18 n (decimalExponent n) with
  | some (s, e) => (scaledNum s e, (-e).toNat)
  | none => (n * 5 ^ subnormalBits, subnormalBits)

/-- The decimal denoted by `x.toString(10)`: `"NaN"`, `"Infinity"`, `"-Infinity"`, `"0"` for
both zeros, and otherwise the shortest digits that read back as `x`. -/
def JSNumber.toDecimal : JSNumber → Decimal
  | .nan => .nan
  | .inf neg => .inf neg
  | .fin neg n =>
    if n = 0 then .fin false 0 0
    else .fin neg (shortestDecimal n).1 (shortestDecimal n).2

/-- The Number denoted by a numeric string (`StringToNumber` on the numeral it holds). -/
def Decimal.toNumber : Decimal → JSNumber
  | .nan => .nan
  | .inf neg => .inf neg
  | .fin neg c k => JSNumber.ofRatio neg c (10 ^ k)

/-! ## Numeric text (ECMAScript `StrDecimalLiteral`, `StringNumericLiteral`) -/

/-- ECMAScript `WhiteSpace` and `LineTerminator` code points, as trimmed by `parseFloat`,
`Number` and the regular expression class `\s`. -/
def isWhiteSpace (c : Char) : Bool :=
  decide (c.toNat ∈ [9, 10, 11, 12, 13, 32, 160, 5760, 8232, 8233, 8239, 8287, 12288, 65279])
    || (decide (8192 ≤ c.toNat) && decide (c.toNat ≤ 8202))

/-- Drop leading white space. -/
def trimStart : List Char → List Char
  | [] => []
  | c :: cs => if isWhiteSpace c then trimStart cs else c :: cs

/-- Drop leading and trailing white space. -/
def trimBoth (cs : List Char) : List Char :=
  (trimStart (trimStart cs).reverse).reverse

/-- Value of a digit in a radix up to 16, if the character is one. -/
def digitValue (radix : Nat) (c : Char) : Option Nat :=
  let v :=
    if decide (48 ≤ c.toNat) && decide (c.toNat ≤ 57) then c.toNat - 48
    else if decide (97 ≤ c.toNat) && decide (c.toNat ≤ 102) then c.toNat - 87
    else if decide (65 ≤ c.toNat) && decide (c.toNat ≤ 70) then c.toNat - 55
    else 16
  if v < radix then some v else none

/-- Read the longest run of digits of the radix: the value read so far, the number of digits
read, and the remaining text. -/
def readDigits (radix : Nat) : List Char → Nat → Nat → Nat × Nat × List Char
  | [], acc, len => (acc, len, [])
  | c :: cs, acc, len =>
    match digitValue radix c with
    | some v => readDigits radix cs (acc * radix + v) (len + 1)
    | none => (acc, len, c :: cs)

/-- Read an `ExponentPart` (`e` or `E`, an optional sign, at least one digit) if the text
starts with one; otherwise the exponent is zero and nothing is consumed. -/
def readExponent (cs : List Char) : Int × List Char :=
  match cs with
  | c :: rest =>
    if c = 'e' ∨ c = 'E' then
      let (neg, body) :=
        match rest with
        | '+' :: r => (false, r)
        | '-' :: r => (true, r)
        | r => (false, r)
      match readDigits 10 body 0 0 with
      | (_, 0, _) => (0, cs)
      | (v, _, r) => (if neg then - (v : Int) else (v : Int), r)
    else (0, cs)
  | [] => (0, [])

/-- The decimal `(-1)^neg * c * 10^e`. -/
def Decimal.ofSci (neg : Bool) (c : Nat) (e : Int) : Decimal :=
  .fin neg (c * 10 ^ e.toNat) (-e).toNat

/-- Read the longest unsigned decimal literal the text starts with (digits, an optional
fraction, an optional exponent): its coefficient, its decimal exponent and the remaining text. -/
def readUnsignedDecimal (cs : List Char) : Option (Nat × Int × List Char) :=
  match readDigits 10 cs 0 0 with
  | (_, 0, '.' :: r) =>
    (match readDigits 10 r 0 0 with
     | (_, 0, _) => none
     | (f, flen, r2) =>
       let (e, r3) := readExponent r2
       some (f, e - (flen : Int), r3))
  | (_, 0, _) => none
  | (i, _, '.' :: r) =>
    (match readDigits 10 r i 0 with
     | (m, flen, r2) =>
       let (e, r3) := readExponent r2
       some (m, e - (flen : Int), r3))
  | (i, _, r) =>
    let (e, r2) := readExponent r
    some (i, e, r2)

/-- Split an optional leading sign off the text. -/
def readSign : List Char → Bool × List Char
  | '-' :: r => (true, r)
  | '+' :: r => (false, r)
  | r => (false, r)

/-- The decimal that `parseFloat` reads from a string: white space is skipped, then the
longest prefix that is a `StrDecimalLiteral` is taken; NaN when there is none. -/
def parseFloatText (cs : List Char) : Decimal :=
  let (neg, body) := readSign (trimStart cs)
  if "Infinity".toList.isPrefixOf body then .inf neg
  else
    match readUnsignedDecimal body with
    | some (c, e, _) => Decimal.ofSci neg c e
    | none => .nan

/-- A radix-prefixed integer literal body: all digits, at least one. -/
def readRadixInteger (radix : Nat) (cs : List Char) : Decimal :=
  match readDigits radix cs 0 0 with
  | (_, 0, _) => .nan
  | (v, _, []) => .fin false v 0
  | _ => .nan

/-- The decimal that `Number(s)` (and so `isNaN(s)`) reads from a string, following
`StringNumericLiteral`: the whole trimmed text must be a numeral; empty text is zero. -/
def stringToNumberText (cs : List Char) : Decimal :=
  match trimBoth cs with
  | [] => .fin false 0 0
  | '0' :: 'x' :: r => readRadixInteger 16 r
  | '0' :: 'X' :: r => readRadixInteger 16 r
  | '0' :: 'o' :: r => readRadixInteger 8 r
  | '0' :: 'O' :: r => readRadixInteger 8 r
  | '0' :: 'b' :: r => readRadixInteger 2 r
  | '0' :: 'B' :: r => readRadixInteger 2 r
  | t =>
    let (neg, body) := readSign t
    if body = "Infinity".toList then .inf neg
    else
      match readUnsignedDecimal body with
      | some (c, e, []) => Decimal.ofSci neg c e
      | _ => .nan

/-! ## bignumber.js -/

/-- A bignumber.js value. -/
abbrev BigNumber := Decimal

/-- The library default of `DECIMAL_PLACES`; the repository never reconfigures it. -/
def DECIMAL_PLACES : Nat := 20

/-- The quotient `num / den` rounded to the nearest integer, halves away from zero: the library
default `ROUNDING_MODE` (`ROUND_HALF_UP`) on magnitudes. -/
def roundHalfUp (num den : Nat) : Nat := (2 * num + den) / (2 * den)

/-- Rounding to `DECIMAL_PLACES` decimal places, which the library applies whenever a base
is passed to the constructor or to `toString`, base 10 included. -/
def BigNumber.round : BigNumber → BigNumber
  | .fin neg c k =>
    if k ≤ DECIMAL_PLACES then .fin neg c k
    else .fin neg (roundHalfUp c (10 ^ (k - DECIMAL_PLACES))) DECIMAL_PLACES
  | x => x

/-- The method `x.times(y)`: the exact product. -/
def BigNumber.times : BigNumber → BigNumber → BigNumber
  | .nan, _ => .nan
  | _, .nan => .nan
  | .inf a, .inf b => .inf (xor a b)
  | .inf a, .fin b d _ => if d = 0 then .nan else .inf (xor a b)
  | .fin a c _, .inf b => if c = 0 then .nan else .inf (xor a b)
  | .fin a c k, .fin b d l => .fin (xor a b) (c * d) (k + l)

/-- The method `x.dividedBy(y)`: the quotient rounded to `DECIMAL_PLACES` decimal places. -/
def BigNumber.dividedBy : BigNumber → BigNumber → BigNumber
  | .nan, _ => .nan
  | _, .nan => .nan
  | .inf _, .inf _ => .nan
  | .inf a, .fin b _ _ => .inf (xor a b)
  | .fin a _ _, .inf b => .fin (xor a b) 0 0
  | .fin a c k, .fin b d l =>
    if d = 0 then (if c = 0 then .nan else .inf (xor a b))
    else .fin (xor a b) (roundHalfUp (c * 10 ^ l * 10 ^ DECIMAL_PLACES) (d * 10 ^ k)) DECIMAL_PLACES

/-- The numeral printed by `x.toString(10)`: rounded to `DECIMAL_PLACES`, in plain notation,
and without a sign when the value is zero. -/
def BigNumber.toString10 (x : BigNumber) : Decimal :=
  match BigNumber.round x with
  | .fin neg c k => if c = 0 then .fin false 0 0 else .fin neg c k
  | y => y

/-- Whether a character is in the regular expression class `\w` or is a dot. -/
def isWordOrDot (c : Char) : Bool :=
  c.isAlphanum || decide (c = '_') || decide (c = '.')

/-- Digits of a radix-prefixed literal must be all lower case or all upper case. -/
def sameCase (cs : List Char) : Bool :=
  cs.all (fun c => !c.isUpper) || cs.all (fun c => !c.isLower)

/-- Number of binary digits that one digit of the radix 2, 8 or 16 stands for. -/
def radixBits (radix : Nat) : Nat :=
  if radix = 16 then 4 else if radix = 8 then 3 else 1

/-- The body of a radix-prefixed numeral as bignumber.js reads it: digits of the radix, at
least one, then optionally a point and further digits.  The value `m / radix^f` is the exact
decimal `m * 5^(b*f) / 10^(b*f)` for `radix = 2^b`, and the conversion rounds it to
`DECIMAL_PLACES`. -/
def readRadixNumber (neg : Bool) (radix : Nat) (cs : List Char) : BigNumber :=
  match readDigits radix cs 0 0 with
  | (_, 0, _) => .nan
  | (v, _, []) => .fin neg v 0
  | (v, _, '.' :: r) =>
    (match readDigits radix r v 0 with
     | (m, flen, []) =>
       BigNumber.round (.fin neg (m * 5 ^ (radixBits radix * flen)) (radixBits radix * flen))
     | _ => .nan)
  | _ => .nan

/-- The value `new BigNumber(text)` reads from a string: surrounding white space and a leading
plus are dropped; then a decimal numeral in plain or exponential notation, `Infinity`, `NaN`
or a numeral with a `0x`, `0o` or `0b` prefix (with an optional fraction) is read, each with
an optional minus; any other text is NaN. -/
def BigNumber.ofText (cs : List Char) : BigNumber :=
  let t := trimBoth cs
  let t :=
    match t with
    | '+' :: c :: r => if isWordOrDot c then c :: r else t
    | _ => t
  let (neg, body) :=
    match t with
    | '-' :: r => (true, r)
    | r => (false, r)
  if body = "Infinity".toList then .inf neg
  else if body = "NaN".toList then .nan
  else
    match readUnsignedDecimal body with
    | some (c, e, []) => Decimal.ofSci neg c e
    | _ =>
      let radix : Option (Nat × List Char) :=
        match body with
        | '0' :: p :: r =>
          if p = 'x' ∨ p = 'X' then some (16, r)
          else if p = 'o' ∨ p = 'O' then some (8, r)
          else if p = 'b' ∨ p = 'B' then some (2, r)
          else none
        | _ => none
      match radix with
      | some (b, r) => if sameCase r then readRadixNumber neg b r else .nan
      | none => .nan

/-! ## ECMAScript values -/

deriving instance DecidableEq for Except

/-- What a `throw` (or a rejected promise) carries. -/
inductive Thrown where
  /-- A string passed to `reject`. -/
  | str (s : String)
  /-- A `TypeError` raised by the language, such as reading a property of `undefined`. -/
  | typeError
  /-- An error raised by the SDK, the wallet or the network, with an opaque code. -/
  | sdk (code : Nat)
  deriving DecidableEq, Repr

/-- The ECMAScript values a caller can pass where the code expects an amount or an address.
An object is represented by the string its `toString()` gives. -/
inductive JSValue where
  | undefined
  | null
  | bool (b : Bool)
  | number (x : JSNumber)
  | string (s : String)
  | object (str : String)
  deriving DecidableEq, Repr

/-- The operator `typeof`. -/
def JSValue.typeof : JSValue → String
  | .undefined => "undefined"
  | .null => "object"
  | .bool _ => "boolean"
  | .number _ => "number"
  | .string _ => "string"
  | .object _ => "object"

/-- The operation `ToBoolean`: the values that pass an `if`. -/
def JSValue.truthy : JSValue → Bool
  | .undefined => false
  | .null => false
  | .bool b => b
  | .number .nan => false
  | .number (.fin _ n) => decide (n ≠ 0)
  | .number (.inf _) => true
  | .string s => decide (s ≠ "")
  | .object _ => true

/-- The operator `a || b`. -/
def JSValue.or (a b : JSValue) : JSValue := if a.truthy then a else b

/-- The comparison `v == s` against a string `s` (`IsLooselyEqual`): a string compares as text,
an object through its string, a number or boolean through `Number(s)`, and `undefined` and
`null` equal no string. -/
def JSValue.looseEqString (v : JSValue) (s : String) : Bool :=
  match v with
  | .undefined => false
  | .null => false
  | .string t => decide (t = s)
  | .object t => decide (t = s)
  | .number x => decide (x ≠ .nan ∧ (stringToNumberText s.toList).toNumber = x)
      || (match x, (stringToNumberText s.toList).toNumber with
          | .fin _ 0, .fin _ 0 => true
          | _, _ => false)
  | .bool b =>
    (match (stringToNumberText s.toList).toNumber with
     | .fin neg n => if b then !neg && decide (n = 2 ^ subnormalBits) else decide (n = 0)
     | _ => false)

/-- The function `parseFloat(v)`: the Number read from the text that `ToString` gives for the
value (for a Number, its shortest decimal; for a string, the string itself). -/
def JSValue.parseFloat : JSValue → JSNumber
  | .number x => x.toDecimal.toNumber
  | .string s => (parseFloatText s.toList).toNumber
  | .object s => (parseFloatText s.toList).toNumber
  | .undefined => .nan
  | .null => .nan
  | .bool _ => .nan

/-- The global `isNaN(v)`, which is `Number(v)` being NaN. -/
def JSValue.isNaN : JSValue → Bool
  | .number x => x.isNaN
  | .string s => (stringToNumberText s.toList).toNumber.isNaN
  | .object s => (stringToNumberText s.toList).toNumber.isNaN
  | .undefined => true
  | .null => false
  | .bool _ => false

/-- The value of `new BigNumber(v.toString(10), 10)`: the method call `v.toString(10)` throws a
`TypeError` on `undefined` and `null`; a Number prints its shortest decimal, a string is
itself, a boolean prints `true` or `false`; the constructor then rounds to `DECIMAL_PLACES`
because a base is passed. -/
def BigNumber.ofValue : JSValue → Except Thrown BigNumber
  | .undefined => .error .typeError
  | .null => .error .typeError
  | .bool _ => .ok .nan
  | .number x => .ok (BigNumber.round x.toDecimal)
  | .string s => .ok (BigNumber.round (BigNumber.ofText s.toList))
  | .object s => .ok (BigNumber.round (BigNumber.ofText s.toList))

/-- The expression `parseFloat(x.toString(10))` for a bignumber.js value `x`.  A numeral with
more than 20 significant digits is read with correct rounding, as the common engines do. -/
def BigNumber.parseFloat (x : BigNumber) : JSNumber := (BigNumber.toString10 x).toNumber

/-! ## `src/utils.js` -/

/-- The string `'1' + '0'.repeat(decimals)` as the value bignumber.js reads from it. -/
def tenPow (decimals : Nat) : BigNumber := .fin false (10 ^ decimals) 0

/-- The method `Utils.toHexadecimal(amount, decimals)` (utils.js, lines 10-15). -/
def Utils.toHexadecimal (amount : JSValue) (decimals : Nat) : Except Thrown JSNumber := do
  let length := tenPow decimals
  let value := (← BigNumber.ofValue amount).times length
  return BigNumber.parseFloat value

/-- The method `Utils.toDecimal(amount, decimals)` (utils.js, lines 22-26). -/
def Utils.toDecimal (amount : JSValue) (decimals : Nat) : Except Thrown JSNumber := do
  let length := tenPow decimals
  let value := (← BigNumber.ofValue amount).dividedBy length
  return BigNumber.parseFloat value

/-- The composition `Utils.toDecimal(Utils.toHexadecimal(amount, decimals), decimals)`. -/
def Utils.roundTrip (amount : JSValue) (decimals : Nat) : Except Thrown JSNumber := do
  let units ← Utils.toHexadecimal amount decimals
  Utils.toDecimal (.number units) decimals

/-- The method `Utils.isNumeric(val)` (utils.js, lines 32-35). -/
def Utils.isNumeric (val : JSValue) : Bool :=
  if val.typeof ≠ "string" then true
  else val.isNaN && (JSValue.parseFloat val).isNaN

/-! ## The SDK, the wallet and the network

Everything the repository delegates to `@solana/web3.js`, `@solana/spl-token` and the wallet
adapter is a call that leaves the code.  Each such call is appended to a log, and its answer
is given by a `World`, which may answer differently depending on the calls made before. -/

/-- A `Web3.PublicKey`, by its base58 text. -/
structure PublicKey where
  base58 : String
  deriving DecidableEq, Repr

/-- The parameters handed to the instruction builders of the SDK (program ids, which are SDK
constants, are left out). -/
inductive Instruction where
  /-- The call `Web3.SystemProgram.transfer({fromPubkey, toPubkey, lamports})`. -/
  | systemTransfer (fromPubkey : Option PublicKey) (toPubkey : PublicKey) (lamports : JSNumber)
  /-- The call `SplToken.Token.createAssociatedTokenAccountInstruction(...)`. -/
  | createAssociatedTokenAccount (mint associatedAccount owner : PublicKey)
      (payer : Option PublicKey)
  /-- The call `SplToken.Token.createTransferInstruction(...)`. -/
  | tokenTransfer (source destination : PublicKey) (owner : Option PublicKey) (amount : JSNumber)
  deriving DecidableEq, Repr

/-- A `Web3.Transaction`: the instructions added to it, in order. -/
structure Transaction where
  instructions : List Instruction
  deriving DecidableEq, Repr

/-- The `value` of the answer of `connection.getTokenAccountBalance`.  `uiAmount` is a balance:
a finite double that is not negative, kept by its numerator over `2^1074`. -/
structure TokenAmount where
  amount : String
  decimals : Nat
  uiAmountNumerator : Nat
  uiAmountString : String
  deriving DecidableEq, Repr

/-- A call that leaves the repository. -/
inductive Call where
  | getBalance (publicKey : Option PublicKey)
  | newPublicKey (value : JSValue)
  | build (instruction : Instruction)
  | sendTransaction (transaction : Transaction)
  | getAssociatedTokenAddress (mint : PublicKey) (owner : Option PublicKey)
  | getTokenAccountBalance (tokenAccount : PublicKey)
  | getOrCreateAssociatedAccountInfo (mint : PublicKey) (owner : Option PublicKey)
  | getAccountInfo (account : PublicKey)
  deriving DecidableEq, Repr

/-- Whether a call constructs an instruction or submits a transaction. -/
def Call.isTransaction : Call → Bool
  | .build _ => true
  | .sendTransaction _ => true
  | _ => false

/-- The answers of the SDK, the wallet and the network.  Every answer may depend on the calls
made so far (`past`), and every call may throw or reject. -/
structure World where
  /-- The reactive `walletAdapter.publicKey`: `null` while no wallet is connected. -/
  publicKey : Option PublicKey
  /-- The call `connection.getBalance`: lamports, an unsigned 64-bit count. -/
  getBalance : (past : List Call) → Option PublicKey → Except Thrown Nat
  /-- The constructor `new Web3.PublicKey(value)`. -/
  newPublicKey : (past : List Call) → JSValue → Except Thrown PublicKey
  /-- Whether an instruction builder accepts its parameters. -/
  build : (past : List Call) → Instruction → Except Thrown Unit
  /-- The call `walletAdapter.sendTransaction`: the signature. -/
  sendTransaction : (past : List Call) → Transaction → Except Thrown String
  /-- The call `SplToken.Token.getAssociatedTokenAddress`. -/
  getAssociatedTokenAddress : (past : List Call) → PublicKey → Option PublicKey →
    Except Thrown PublicKey
  /-- The call `connection.getTokenAccountBalance`. -/
  getTokenAccountBalance : (past : List Call) → PublicKey → Except Thrown TokenAmount
  /-- The call `token.getOrCreateAssociatedAccountInfo`: the address of the account. -/
  getOrCreateAssociatedAccountInfo : (past : List Call) → PublicKey → Option PublicKey →
    Except Thrown PublicKey
  /-- The call `connection.getAccountInfo`: whether the account exists (`null` if not). -/
  getAccountInfo : (past : List Call) → PublicKey → Except Thrown Bool

/-- An asynchronous computation: from the log of the calls made so far to a value or a thrown
value (a rejected promise, for the caller that awaits it) and the extended log. -/
def Async (α : Type) : Type := List Call → Except Thrown α × List Call

/-- A computation that makes no call. -/
def Async.pure {α : Type} (a : α) : Async α := fun log => (.ok a, log)

/-- Sequencing; a thrown value skips what follows and keeps the log. -/
def Async.bind {α β : Type} (m : Async α) (f : α → Async β) : Async β := fun log =>
  match m log with
  | (.ok a, log1) => f a log1
  | (.error e, log1) => (.error e, log1)

instance : Monad Async where
  pure := Async.pure
  bind := Async.bind

/-- The statement `throw e`, and also `return reject(e)` inside a promise executor. -/
def Async.throw {α : Type} (e : Thrown) : Async α := fun log => (.error e, log)

/-- The statement `try { m } catch (error) { handler(error) }`. -/
def Async.tryCatch {α : Type} (m : Async α) (handler : Thrown → Async α) : Async α := fun log =>
  match m log with
  | (.ok a, log1) => (.ok a, log1)
  | (.error e, log1) => handler e log1

/-- A call that leaves the code: the world answers from the log so far, the call is logged. -/
def Async.call {α : Type} (c : Call) (answer : List Call → Except Thrown α) : Async α :=
  fun log => (answer log, log ++ [c])

/-- A synchronous result that may have thrown. -/
def Async.ofExcept {α : Type} (x : Except Thrown α) : Async α := fun log => (x, log)

/-! ## `src/solana-web3.js` and `src/token.js` -/

/-- A cluster descriptor (solana-web3.js, lines 43-62). -/
structure ClusterDescriptor where
  node : String
  name : String
  host : String
  explorer : String
  deriving DecidableEq, Repr

/-- The object `clusters`, read at a key: `clusters[key]` (solana-web3.js, lines 43-62). -/
def SolanaWeb3.clusters (key : String) : Option ClusterDescriptor :=
  if key = "mainnet-beta" then
    some { node := "mainnet-beta", name := "Mainnet",
           host := "https://api.devnet.solana.com", explorer := "https://solscan.io/" }
  else if key = "testnet" then
    some { node := "testnet", name := "Testnet",
           host := "https://api.testnet.solana.com", explorer := "https://solscan.io/" }
  else if key = "devnet" then
    some { node := "devnet", name := "Devnet",
           host := "https://api.mainnet-beta.solana.com/", explorer := "https://solscan.io/" }
  else none

/-- An entry of the token registry (`@solana/spl-token-registry`), as far as the code reads it. -/
structure TokenListEntry where
  address : String
  decimals : Nat
  deriving DecidableEq, Repr

/-- The fields of a `Token` (token.js, lines 8-12).  `tokenList` is `undefined` until the
registry promise of the constructor resolves, then a `Map` from address to entry. -/
structure Token where
  tokenAddress : JSValue
  tokenList : Option (String → Option TokenListEntry)

/-- The fields of a `SolanaWeb3` that the modelled methods read (solana-web3.js, lines 19-64). -/
structure SolanaWeb3 where
  connectedCluster : Option ClusterDescriptor
  token : Token

/-- The state after `new SolanaWeb3(config)` as far as the fields above go (solana-web3.js,
lines 91 and 97; token.js, lines 14-25): no token address is set and the registry has not
arrived yet. -/
def SolanaWeb3.construct (cluster : String) : SolanaWeb3 :=
  { connectedCluster := SolanaWeb3.clusters cluster,
    token := { tokenAddress := .undefined, tokenList := none } }

/-- Reading `this.<name>` where a cluster descriptor is expected.  The class declares and
assigns `connectedCluster`; no field, method or assignment is named `cluster`, so that
property is `undefined`. -/
def SolanaWeb3.descriptorField (self : SolanaWeb3) (name : String) : Option ClusterDescriptor :=
  if name = "connectedCluster" then self.connectedCluster else none

/-- The method `getConnectedPublicKey()` (solana-web3.js, lines 120-122). -/
def SolanaWeb3.getConnectedPublicKey (w : World) : Option PublicKey := w.publicKey

/-- The method `getSolBalance()` (solana-web3.js, lines 132-135). -/
def SolanaWeb3.getSolBalance (w : World) : Async JSNumber := do
  let balance ← Async.call (.getBalance (SolanaWeb3.getConnectedPublicKey w))
    (fun past => w.getBalance past (SolanaWeb3.getConnectedPublicKey w))
  Async.ofExcept (Utils.toDecimal (.number (JSNumber.ofNat balance)) 9)

/-- The method `createTransaction(instruction)` (solana-web3.js, lines 184-186). -/
def SolanaWeb3.createTransaction (instruction : Instruction) : Transaction :=
  { instructions := [instruction] }

/-- The method `sendTransaction(transaction)` (solana-web3.js, lines 188-190). -/
def SolanaWeb3.sendTransaction (w : World) (transaction : Transaction) : Async String :=
  Async.call (.sendTransaction transaction) (fun past => w.sendTransaction past transaction)

/-- The constructor call `new Web3.PublicKey(value)`. -/
def newPublicKey (w : World) (value : JSValue) : Async PublicKey :=
  Async.call (.newPublicKey value) (fun past => w.newPublicKey past value)

/-- A call of an instruction builder of the SDK. -/
def buildInstruction (w : World) (instruction : Instruction) : Async Instruction := do
  Async.call (.build instruction) (fun past => w.build past instruction)
  return instruction

/-- The method `solTransfer(toAddress, amount)` (solana-web3.js, lines 147-178).  The promise it returns
resolves with the signature or rejects with what `reject` was given. -/
def SolanaWeb3.solTransfer (w : World) (toAddress amount : JSValue) : Async String :=
  Async.tryCatch (do
    if (JSValue.parseFloat amount).lt (JSNumber.ofNat 0) then
      Async.throw (.str "transfer-amount-error")
    else
      let parsed := JSValue.parseFloat amount
      if parsed.gt (← SolanaWeb3.getSolBalance w) then
        Async.throw (.str "insufficient-balance")
      else
        let fromPublicKey := SolanaWeb3.getConnectedPublicKey w
        let toPublicKey ← newPublicKey w toAddress
        let amount ← Async.ofExcept (Utils.toHexadecimal amount 9)
        let transaction := SolanaWeb3.createTransaction
          (← buildInstruction w (.systemTransfer fromPublicKey toPublicKey amount))
        let signature ← SolanaWeb3.sendTransaction w transaction
        return signature)
    (fun error => Async.throw error)

/-- The object `getInfo` returns: the token amount with `tokenAccount` and `tokenAddress`
assigned onto it (token.js, line 227). -/
structure TokenInfo where
  amount : String
  uiAmount : JSNumber
  uiAmountString : String
  decimals : Nat
  tokenAccount : String
  tokenAddress : JSValue
  deriving DecidableEq, Repr

/-- The method `Map.prototype.get` on the registry map: only a string can equal one of its keys. -/
def tokenListGet (tokenList : String → Option TokenListEntry) : JSValue → Option TokenListEntry
  | .string s => tokenList s
  | _ => none

/-- The method `instance(tokenAddress)` (token.js, lines 119-125): the mint key of the `SplToken.Token`. -/
def Token.instance (self : Token) (w : World) (tokenAddress : JSValue) : Async PublicKey :=
  newPublicKey w (self.tokenAddress.or tokenAddress)

/-- The method `getInfo(tokenAddress)` (token.js, lines 199-228). -/
def Token.getInfo (self : Token) (w : World) (tokenAddress : JSValue) : Async TokenInfo := do
  let tokenAddress := self.tokenAddress.or tokenAddress
  let tokenPublicKey ← newPublicKey w tokenAddress
  let _token ← self.instance w tokenAddress
  let fromPublicKey := SolanaWeb3.getConnectedPublicKey w
  let tokenAccount ← Async.call (.getAssociatedTokenAddress tokenPublicKey fromPublicKey)
    (fun past => w.getAssociatedTokenAddress past tokenPublicKey fromPublicKey)
  let value ← Async.tryCatch
    (do
      let tokenInfo ← Async.call (.getTokenAccountBalance tokenAccount)
        (fun past => w.getTokenAccountBalance past tokenAccount)
      return (tokenInfo.amount, JSNumber.fin false tokenInfo.uiAmountNumerator,
        tokenInfo.uiAmountString, tokenInfo.decimals))
    (fun _error =>
      match self.tokenList with
      | none => Async.throw .typeError
      | some tokenList =>
        match tokenListGet tokenList tokenAddress with
        | none => Async.throw .typeError
        | some tokenInfoByList =>
          Async.pure ("0", JSNumber.ofNat 0, "0", tokenInfoByList.decimals))
  return { amount := value.1, uiAmount := value.2.1, uiAmountString := value.2.2.1,
           decimals := value.2.2.2, tokenAccount := tokenAccount.base58,
           tokenAddress := tokenAddress }

/-- The method `getBalance(tokenAddress)` (token.js, lines 194-197). -/
def Token.getBalance (self : Token) (w : World) (tokenAddress : JSValue) : Async JSNumber := do
  let tokenInfo ← self.getInfo w (self.tokenAddress.or tokenAddress)
  return tokenInfo.uiAmount

/-- The method `Token.transfer(toAddress, amount, tokenAddress)` (token.js, lines 127-192). -/
def Token.transfer (self : Token) (w : World) (toAddress amount tokenAddress : JSValue) :
    Async String :=
  let tokenAddress := self.tokenAddress.or tokenAddress
  Async.tryCatch (do
    if (JSValue.parseFloat amount).lt (JSNumber.ofNat 0) then
      Async.throw (.str "transfer-amount-error")
    else
      let parsed := JSValue.parseFloat amount
      if parsed.gt (← self.getBalance w tokenAddress) then
        Async.throw (.str "insufficient-balance")
      else
        let fromPublicKey := SolanaWeb3.getConnectedPublicKey w
        let toPublicKey ← newPublicKey w toAddress
        let tokenPublicKey ← newPublicKey w tokenAddress
        let tokenInfo ← self.getInfo w tokenAddress
        let amount ← Async.ofExcept (Utils.toHexadecimal amount tokenInfo.decimals)
        let token ← self.instance w tokenAddress
        let fromTokenAccount ← Async.call (.getOrCreateAssociatedAccountInfo token fromPublicKey)
          (fun past => w.getOrCreateAssociatedAccountInfo past token fromPublicKey)
        let toTokenAccount ← Async.call (.getAssociatedTokenAddress tokenPublicKey toPublicKey)
          (fun past => w.getAssociatedTokenAddress past tokenPublicKey (some toPublicKey))
        let receiverAccount ← Async.call (.getAccountInfo toTokenAccount)
          (fun past => w.getAccountInfo past toTokenAccount)
        let created ←
          if receiverAccount = false then do
            let i ← buildInstruction w
              (.createAssociatedTokenAccount tokenPublicKey toTokenAccount toPublicKey fromPublicKey)
            Async.pure [i]
          else Async.pure []
        let i ← buildInstruction w
          (.tokenTransfer fromTokenAccount toTokenAccount fromPublicKey amount)
        let transaction : Transaction := { instructions := created ++ [i] }
        let signature ← SolanaWeb3.sendTransaction w transaction
        return signature)
    (fun error => Async.throw error)

/-- The method `tokenTransfer(toAddress, amount, tokenAddress)` (solana-web3.js, lines 180-182). -/
def SolanaWeb3.tokenTransfer (self : SolanaWeb3) (w : World) (toAddress amount tokenAddress : JSValue) :
    Async String :=
  self.token.transfer w toAddress amount tokenAddress

/-- What `transfer` returns: a promise, or an `Error` object (returned, not thrown). -/
inductive TransferResult where
  | promise (p : Async String)
  | error (message : String)

/-- The method `transfer(toAddress, amount, tokenAddress = null)` (solana-web3.js, lines 137-145). -/
def SolanaWeb3.transfer (self : SolanaWeb3) (w : World) (toAddress amount : JSValue)
    (tokenAddress : JSValue) : TransferResult :=
  let tokenAddress := if tokenAddress = .undefined then JSValue.null else tokenAddress
  if !tokenAddress.truthy || tokenAddress.looseEqString "SOL" then
    .promise (SolanaWeb3.solTransfer w toAddress amount)
  else if tokenAddress.truthy then
    .promise (self.tokenTransfer w toAddress amount tokenAddress)
  else
    .error "invalid-token-address"

/-- The method `getTransactionUrl(signature)` (solana-web3.js, lines 196-201).  Reading a property of
`undefined` throws a `TypeError`. -/
def SolanaWeb3.getTransactionUrl (self : SolanaWeb3) (signature : String) : Except Thrown String := do
  let node ←
    match self.descriptorField "connectedCluster" with
    | some c => pure c.node
    | none => throw Thrown.typeError
  let explorer ←
    match self.descriptorField "cluster" with
    | some c => pure c.explorer
    | none => throw Thrown.typeError
  let transactionUrl := explorer ++ "tx/" ++ signature
  let transactionUrl := transactionUrl ++ (if node ≠ "mainnet-beta" then "?cluster=" ++ node else "")
  return transactionUrl

/-! ## Sample worlds -/

/-- A world in which every call succeeds: the wallet holds `lamports`, the token account holds
the given token amount, and the recipient has no token account yet. -/
def World.accepting (lamports : Nat) (tokenAmount : TokenAmount) : World where
  publicKey := some { base58 := "sender" }
  getBalance := fun _ _ => .ok lamports
  newPublicKey := fun _ v =>
    match v with
    | .string s => .ok { base58 := s }
    | .object s => .ok { base58 := s }
    | _ => .error (.sdk 1)
  build := fun _ _ => .ok ()
  sendTransaction := fun _ _ => .ok "signature"
  getAssociatedTokenAddress := fun _ mint owner =>
    .ok { base58 := mint.base58 ++ "/" ++ (owner.map (fun k => k.base58)).getD "" }
  getTokenAccountBalance := fun _ _ => .ok tokenAmount
  getOrCreateAssociatedAccountInfo := fun _ mint owner =>
    .ok { base58 := mint.base58 ++ "/" ++ (owner.map (fun k => k.base58)).getD "" }
  getAccountInfo := fun _ _ => .ok false

/-- The same world, except that the token account of the wallet does not exist yet, so that
`getTokenAccountBalance` rejects. -/
def World.withoutTokenAccount (lamports : Nat) : World :=
  { World.accepting lamports ⟨"0", 0, 0, "0"⟩ with
    getTokenAccountBalance := fun _ _ => .error (.sdk 2) }

/-! ## Lemmas -/

/-! ### Rounding to a double -/

theorem bitLen_zero (f : Nat) : bitLen f 0 = 0 := by
  cases f <;> simp [bitLen]

theorem bitLen_spec : ∀ (f m : Nat), m ≤ f →
    m < 2 ^ bitLen f m ∧ (m ≠ 0 → 2 ^ (bitLen f m - 1) ≤ m) := by
  intro f
  induction f with
  | zero =>
    intro m hm
    have : m = 0 := by omega
    subst this
    simp [bitLen]
  | succ f ih =>
    intro m hm
    by_cases h0 : m = 0
    · subst h0; simp [bitLen]
    · have hle : m / 2 ≤ f := by omega
      obtain ⟨h1, h2⟩ := ih (m / 2) hle
      simp only [bitLen, h0, if_false]
      constructor
      · rw [Nat.pow_succ]; omega
      · intro _
        simp only [Nat.add_sub_cancel]
        by_cases h3 : m / 2 = 0
        · rw [h3, bitLen_zero]; simp; omega
        · have h4 := h2 h3
          have h5 : 0 < bitLen f (m / 2) := by
            rcases Nat.eq_zero_or_pos (bitLen f (m / 2)) with h | h
            · rw [h] at h1; simp at h1; omega
            · exact h
          have h6 : bitLen f (m / 2) = (bitLen f (m / 2) - 1) + 1 := by omega
          rw [h6, Nat.pow_succ]; omega

theorem bitLen_le_of_lt (m k : Nat) (h : m < 2 ^ k) : bitLen m m ≤ k := by
  by_cases h0 : m = 0
  · subst h0; simp [bitLen_zero]
  · have h2 := (bitLen_spec m m (Nat.le_refl m)).2 h0
    have h3 : 2 ^ (bitLen m m - 1) < 2 ^ k := Nat.lt_of_le_of_lt h2 h
    have h4 := (Nat.pow_lt_pow_iff_right (by decide : 1 < 2)).1 h3
    omega

theorem lt_bitLen_of_le (m k : Nat) (h : 2 ^ k ≤ m) : k < bitLen m m := by
  have h1 := (bitLen_spec m m (Nat.le_refl m)).1
  have h3 : 2 ^ k < 2 ^ bitLen m m := Nat.lt_of_le_of_lt h h1
  exact (Nat.pow_lt_pow_iff_right (by decide : 1 < 2)).1 h3

theorem binadeUnit_pos (t : Nat) : 0 < binadeUnit t := by
  unfold binadeUnit; exact Nat.pow_pos (by decide)

theorem roundNearestEven_exact (p q n : Nat) (hq : 0 < q)
    (h : p * 2 ^ subnormalBits = n * q) (hn : n % binadeUnit n = 0) :
    roundNearestEven p q = n := by
  unfold roundNearestEven
  simp only [h]
  rw [Nat.mul_div_cancel n hq]
  have hu := binadeUnit_pos n
  have hb : 0 < q * binadeUnit n := Nat.mul_pos hq hu
  have hr : n * q % (q * binadeUnit n) = 0 := by
    rw [Nat.mul_comm n q, Nat.mul_mod_mul_left, hn, Nat.mul_zero]
  have hs : n * q / (q * binadeUnit n) = n / binadeUnit n := by
    rw [Nat.mul_comm n q, Nat.mul_div_mul_left _ _ hq]
  rw [hr, hs]
  simp only [Nat.mul_zero, hb, if_true]
  exact Nat.div_mul_cancel (Nat.dvd_of_mod_eq_zero hn)

theorem roundNearestEven_scale (p q m : Nat) (hm : 0 < m) :
    roundNearestEven (p * m) (q * m) = roundNearestEven p q := by
  unfold roundNearestEven
  have e1 : p * m * 2 ^ subnormalBits = p * 2 ^ subnormalBits * m := by
    rw [Nat.mul_right_comm]
  simp only [e1]
  rw [Nat.mul_div_mul_right _ _ hm]
  have e2 : q * m * binadeUnit (p * 2 ^ subnormalBits / q)
      = q * binadeUnit (p * 2 ^ subnormalBits / q) * m := by rw [Nat.mul_right_comm]
  simp only [e2]
  rw [Nat.mul_div_mul_right _ _ hm, Nat.mul_mod_mul_right]
  have e3 : ∀ r b : Nat, (2 * (r * m) < b * m) = (2 * r < b) := by
    intro r b
    rw [← Nat.mul_assoc]
    exact propext (Nat.mul_lt_mul_right hm)
  have e4 : ∀ r b : Nat, (b * m < 2 * (r * m)) = (b < 2 * r) := by
    intro r b
    rw [← Nat.mul_assoc]
    exact propext (Nat.mul_lt_mul_right hm)
  simp only [e3, e4]

theorem binadeUnit_dvd_of_lt (M : Nat) (h : M < 2 ^ 53) :
    binadeUnit (M * 2 ^ subnormalBits) ∣ 2 ^ subnormalBits := by
  unfold binadeUnit
  apply Nat.pow_dvd_pow
  have h1 : M * 2 ^ subnormalBits < 2 ^ (53 + subnormalBits) := by
    rw [Nat.pow_add]
    exact Nat.mul_lt_mul_of_pos_right h (Nat.pow_pos (by decide))
  have h2 := bitLen_le_of_lt _ _ h1
  omega

theorem roundNearestEven_nat (M : Nat) (h : M < 2 ^ 53) :
    roundNearestEven M 1 = M * 2 ^ subnormalBits := by
  apply roundNearestEven_exact _ _ _ (by decide)
  · simp
  · apply Nat.mod_eq_zero_of_dvd
    exact Nat.dvd_trans (binadeUnit_dvd_of_lt M h) (Nat.dvd_mul_left _ _)

theorem roundNearestEven_ge (c : Nat) (h : 2 ^ 53 ≤ c) :
    2 ^ 53 * 2 ^ subnormalBits ≤ roundNearestEven c 1 := by
  unfold roundNearestEven
  simp only [Nat.div_one, Nat.one_mul]
  generalize ha : c * 2 ^ subnormalBits = a
  have hge : 2 ^ (53 + subnormalBits) ≤ a := by
    rw [← ha, Nat.pow_add]
    exact Nat.mul_le_mul_right _ h
  have hL := lt_bitLen_of_le a _ hge
  have ha0 : a ≠ 0 := by
    have : 0 < 2 ^ (53 + subnormalBits) := Nat.pow_pos (by decide)
    omega
  have hlow := (bitLen_spec a a (Nat.le_refl a)).2 ha0
  unfold binadeUnit
  generalize hLdef : bitLen a a = L at *
  have hu : 0 < 2 ^ (L - 53) := Nat.pow_pos (by decide)
  have hsplit : 2 ^ (L - 1) = 2 ^ 52 * 2 ^ (L - 53) := by
    rw [← Nat.pow_add]; congr 1; omega
  have hs : 2 ^ 52 ≤ a / 2 ^ (L - 53) := by
    rw [Nat.le_div_iff_mul_le hu, ← hsplit]; exact hlow
  have hfin : 2 ^ 53 * 2 ^ subnormalBits ≤ a / 2 ^ (L - 53) * 2 ^ (L - 53) := by
    calc 2 ^ 53 * 2 ^ subnormalBits = 2 ^ (53 + subnormalBits) := by rw [Nat.pow_add]
      _ ≤ 2 ^ (L - 1) := Nat.pow_le_pow_right (by decide) (by omega)
      _ = 2 ^ 52 * 2 ^ (L - 53) := hsplit
      _ ≤ a / 2 ^ (L - 53) * 2 ^ (L - 53) := Nat.mul_le_mul_right _ hs
  have hstep : a / 2 ^ (L - 53) * 2 ^ (L - 53) ≤ (a / 2 ^ (L - 53) + 1) * 2 ^ (L - 53) :=
    Nat.mul_le_mul_right _ (Nat.le_succ _)
  split
  · exact hfin
  · split
    · exact Nat.le_trans hfin hstep
    · split
      · exact hfin
      · exact Nat.le_trans hfin hstep

/-! ### The shortest decimal of a safe integer -/

theorem decLen_le_of_lt : ∀ (k f m : Nat), m < 10 ^ k → decLen f m ≤ k := by
  intro k
  induction k with
  | zero =>
    intro f m hm
    have : m = 0 := by simpa using hm
    subst this
    cases f <;> simp [decLen]
  | succ k ih =>
    intro f m hm
    cases f with
    | zero => simp [decLen]
    | succ f =>
      by_cases h0 : m = 0
      · simp [decLen, h0]
      · simp only [decLen, h0, if_false]
        have : m / 10 < 10 ^ k := by
          rw [Nat.div_lt_iff_lt_mul (by decide)]
          rw [Nat.pow_succ] at hm; exact hm
        have := ih f (m / 10) this
        omega

theorem decLen_pos (f m : Nat) (h : m ≠ 0) : 0 < decLen (f + 1) m := by
  simp [decLen, h]

theorem scaledDen_natCast (E : Nat) : scaledDen (E : Int) = 1 := by
  simp [scaledDen]

theorem scaledNum_natCast (s E : Nat) : scaledNum s (E : Int) = s * 10 ^ E := by
  simp [scaledNum]

theorem two_pow_subnormalBits_pos : 0 < 2 ^ subnormalBits := Nat.pow_pos (by decide)

theorem roundNearestEven_nat_eq_iff (M c : Nat) (hM : M < 2 ^ 53) :
    roundNearestEven c 1 = M * 2 ^ subnormalBits ↔ c = M := by
  constructor
  · intro h
    by_cases hc : c < 2 ^ 53
    · rw [roundNearestEven_nat c hc] at h
      exact Nat.eq_of_mul_eq_mul_right two_pow_subnormalBits_pos h
    · have h1 := roundNearestEven_ge c (by omega)
      rw [h] at h1
      have h2 := Nat.le_of_mul_le_mul_right h1 two_pow_subnormalBits_pos
      omega
  · intro h
    subst h
    exact roundNearestEven_nat c hM

theorem readsBack_nat (M s E : Nat) (hM : M < 2 ^ 53) :
    readsBack (M * 2 ^ subnormalBits) s (E : Int) = (decide (0 < s) && decide (s * 10 ^ E = M)) := by
  unfold readsBack
  rw [scaledDen_natCast, scaledNum_natCast]
  congr 1
  exact decide_eq_decide.2 (roundNearestEven_nat_eq_iff M _ hM)

theorem digitsAt_nat (M E : Nat) (hM : M < 2 ^ 53) :
    digitsAt (M * 2 ^ subnormalBits) (E : Int) =
      if 0 < M / 10 ^ E ∧ M / 10 ^ E * 10 ^ E = M then some (M / 10 ^ E) else none := by
  unfold digitsAt
  simp only [readsBack_nat M _ E hM, scaledDen_natCast, Int.toNat_ofNat, Nat.mul_one]
  have hlo : M * 2 ^ subnormalBits / (2 ^ subnormalBits * 10 ^ E) = M / 10 ^ E := by
    rw [Nat.mul_comm M, Nat.mul_div_mul_left _ _ two_pow_subnormalBits_pos]
  rw [hlo]
  have hpow : 0 < 10 ^ E := Nat.pow_pos (by decide)
  have hhi : (M / 10 ^ E + 1) * 10 ^ E ≠ M := by
    have := Nat.lt_succ_iff.2 (Nat.le_refl (M / 10 ^ E))
    have h2 : M < (M / 10 ^ E + 1) * 10 ^ E := by
      rw [← Nat.div_lt_iff_lt_mul hpow]; exact this
    omega
  simp only [hhi, decide_False, Bool.and_false, Bool.false_eq_true, if_false]
  by_cases h1 : 0 < M / 10 ^ E ∧ M / 10 ^ E * 10 ^ E = M
  · simp [h1.1, h1.2]
  · rw [if_neg h1]
    by_cases h2 : 0 < M / 10 ^ E
    · have h3 : ¬ M / 10 ^ E * 10 ^ E = M := fun h => h1 ⟨h2, h⟩
      simp [h3]
    · simp [h2]

theorem shortestFrom_nat (M : Nat) (hM : M < 2 ^ 53) (h0 : 0 < M) :
    ∀ (fuel E : Nat), E < fuel →
      ∃ s e : Nat, shortestFrom fuel (M * 2 ^ subnormalBits) (E : Int) = some (s, (e : Int))
        ∧ s * 10 ^ e = M := by
  intro fuel
  induction fuel with
  | zero => intro E h; omega
  | succ fuel ih =>
    intro E hE
    unfold shortestFrom
    rw [digitsAt_nat M E hM]
    by_cases h1 : 0 < M / 10 ^ E ∧ M / 10 ^ E * 10 ^ E = M
    · rw [if_pos h1]
      exact ⟨M / 10 ^ E, E, rfl, h1.2⟩
    · rw [if_neg h1]
      cases E with
      | zero => simp at h1; omega
      | succ E =>
        have hcast : ((E + 1 : Nat) : Int) - 1 = (E : Int) := by
          push_cast; omega
        simp only [hcast]
        exact ih E (by omega)

theorem shortestDecimal_nat (M : Nat) (hM : M < 2 ^ 53) (h0 : 0 < M) :
    shortestDecimal (M * 2 ^ subnormalBits) = (M, 0) := by
  unfold shortestDecimal decimalExponent
  have hge : 2 ^ subnormalBits ≤ M * 2 ^ subnormalBits := Nat.le_mul_of_pos_left _ h0
  rw [if_pos hge, Nat.mul_div_cancel _ two_pow_subnormalBits_pos]
  have hlen2 : decLen 310 M ≤ 16 := decLen_le_of_lt 16 310 M (by
    have : (2 : Nat) ^ 53 < 10 ^ 16 := by decide
    omega)
  obtain ⟨s, e, hs, hv⟩ := shortestFrom_nat M hM h0 18 (decLen 310 M) (by omega)
  rw [hs]
  simp [scaledNum, hv]

theorem roundNearestEven_zero (q : Nat) : roundNearestEven 0 q = 0 := by
  unfold roundNearestEven
  simp

theorem scaled_lt_pow (M e : Nat) (hM : M < 2 ^ 53) (he : 53 ≤ e) :
    ¬ 2 ^ (e + subnormalBits) ≤ M * 2 ^ subnormalBits := by
  intro h
  rw [Nat.pow_add] at h
  have h1 := Nat.le_of_mul_le_mul_right h two_pow_subnormalBits_pos
  have h2 : (2 : Nat) ^ 53 ≤ 2 ^ e := Nat.pow_le_pow_right (by decide) he
  exact absurd (Nat.lt_of_lt_of_le hM (Nat.le_trans h2 h1)) (Nat.lt_irrefl _)

theorem nat_lt_overflowBound (M : Nat) (hM : M < 2 ^ 53) :
    ¬ overflowBound ≤ M * 2 ^ subnormalBits := by
  unfold overflowBound
  exact scaled_lt_pow M 1024 hM (by decide)

theorem JSNumber.ofRatio_scale (neg : Bool) (p q m : Nat) (hm : 0 < m) :
    JSNumber.ofRatio neg (p * m) (q * m) = JSNumber.ofRatio neg p q := by
  unfold JSNumber.ofRatio
  rw [roundNearestEven_scale p q m hm]

theorem JSNumber.ofRatio_zero (neg : Bool) (q : Nat) :
    JSNumber.ofRatio neg 0 q = .fin neg 0 := by
  unfold JSNumber.ofRatio
  rw [roundNearestEven_zero]
  have : ¬ overflowBound ≤ 0 := by
    unfold overflowBound
    exact Nat.not_le.2 (Nat.pow_pos (by decide))
  simp [this]

theorem JSNumber.ofNat_eq (M : Nat) (hM : M < 2 ^ 53) :
    JSNumber.ofNat M = .fin false (M * 2 ^ subnormalBits) := by
  unfold JSNumber.ofNat JSNumber.ofRatio
  rw [roundNearestEven_nat M hM]
  simp [nat_lt_overflowBound M hM]

theorem JSNumber.toDecimal_nat (M : Nat) (hM : M < 2 ^ 53) :
    (JSNumber.fin false (M * 2 ^ subnormalBits)).toDecimal = .fin false M 0 := by
  unfold JSNumber.toDecimal
  by_cases h0 : M = 0
  · subst h0; simp
  · have hne : M * 2 ^ subnormalBits ≠ 0 :=
      Nat.mul_ne_zero h0 (Nat.ne_of_gt two_pow_subnormalBits_pos)
    simp only [hne, if_false]
    rw [shortestDecimal_nat M hM (Nat.pos_of_ne_zero h0)]

/-! ### A double reads back from the decimal it prints -/

theorem digitsAt_readsBack (n : Nat) (e : Int) (s : Nat) (h : digitsAt n e = some s) :
    readsBack n s e = true := by
  unfold digitsAt at h
  simp only at h
  split at h
  · rename_i hboth
    simp only [Bool.and_eq_true] at hboth
    split at h
    · cases h; exact hboth.1
    · split at h
      · cases h; exact hboth.2
      · split at h
        · cases h; exact hboth.1
        · cases h; exact hboth.2
  · split at h
    · rename_i hlo; cases h; exact hlo
    · split at h
      · rename_i hhi; cases h; exact hhi
      · cases h

theorem shortestFrom_readsBack : ∀ (fuel n : Nat) (e : Int) (s : Nat) (e1 : Int),
    shortestFrom fuel n e = some (s, e1) → readsBack n s e1 = true := by
  intro fuel
  induction fuel with
  | zero => intro n e s e1 h; simp [shortestFrom] at h
  | succ fuel ih =>
    intro n e s e1 h
    unfold shortestFrom at h
    cases hd : digitsAt n e with
    | none => rw [hd] at h; exact ih n (e - 1) s e1 h
    | some s0 =>
      rw [hd] at h
      simp only [Option.some.injEq, Prod.mk.injEq] at h
      obtain ⟨h1, h2⟩ := h
      subst h1; subst h2
      exact digitsAt_readsBack n e s0 hd

theorem shortestDecimal_readsBack (n : Nat) (hn : n % binadeUnit n = 0) :
    roundNearestEven (shortestDecimal n).1 (10 ^ (shortestDecimal n).2) = n := by
  unfold shortestDecimal
  cases hs : shortestFrom 18 n (decimalExponent n) with
  | none =>
    simp only
    apply roundNearestEven_exact _ _ _ (Nat.pow_pos (by decide)) _ hn
    rw [Nat.mul_assoc, ← Nat.mul_pow]
  | some r =>
    obtain ⟨s, e⟩ := r
    have h := shortestFrom_readsBack 18 n _ s e hs
    unfold readsBack at h
    simp only [Bool.and_eq_true, decide_eq_true_eq] at h
    simpa [scaledDen] using h.2

/-- A double prints as a decimal that reads back as the same double. -/
theorem JSNumber.toNumber_toDecimal (n : Nat) (h : (JSNumber.fin false n).isDouble = true) :
    (JSNumber.fin false n).toDecimal.toNumber = .fin false n := by
  simp only [JSNumber.isDouble, Bool.and_eq_true, decide_eq_true_eq] at h
  unfold JSNumber.toDecimal
  by_cases h0 : n = 0
  · subst h0
    simp only [if_true, Decimal.toNumber]
    exact JSNumber.ofRatio_zero false _
  · simp only [h0, if_false, Decimal.toNumber, JSNumber.ofRatio]
    rw [shortestDecimal_readsBack n h.1]
    have : ¬ overflowBound ≤ n := by omega
    simp [this]

/-! ### The conversions of `Utils` -/

theorem roundHalfUp_mul (x y : Nat) (hy : 0 < y) : roundHalfUp (x * y) y = x := by
  unfold roundHalfUp
  have : 2 * (x * y) + y = y + x * (2 * y) := by
    rw [Nat.mul_left_comm, Nat.add_comm]
  rw [this, Nat.add_mul_div_right _ _ (by omega : 0 < 2 * y)]
  have : y / (2 * y) = 0 := Nat.div_eq_of_lt (by omega)
  omega

theorem BigNumber.round_of_le (neg : Bool) (c k : Nat) (hk : k ≤ DECIMAL_PLACES) :
    BigNumber.round (.fin neg c k) = .fin neg c k := by
  simp [BigNumber.round, hk]

theorem BigNumber.parseFloat_nat (X : Nat) :
    BigNumber.parseFloat (.fin false X 0) = JSNumber.ofNat X := by
  unfold BigNumber.parseFloat BigNumber.toString10
  rw [BigNumber.round_of_le false X 0 (Nat.zero_le _)]
  by_cases h : X = 0
  · subst h; simp [Decimal.toNumber, JSNumber.ofNat]
  · simp [h, Decimal.toNumber, JSNumber.ofNat]

theorem BigNumber.parseFloat_places (X : Nat) :
    BigNumber.parseFloat (.fin false X DECIMAL_PLACES)
      = JSNumber.ofRatio false X (10 ^ DECIMAL_PLACES) := by
  unfold BigNumber.parseFloat BigNumber.toString10
  rw [BigNumber.round_of_le false X _ (Nat.le_refl _)]
  by_cases h : X = 0
  · subst h
    simp only [if_true, Decimal.toNumber]
    rw [JSNumber.ofRatio_zero, JSNumber.ofRatio_zero]
  · simp [h, Decimal.toNumber]

theorem Utils.toHexadecimal_nat (a d : Nat) (ha : a < 2 ^ 53) :
    Utils.toHexadecimal (.number (JSNumber.ofNat a)) d = .ok (JSNumber.ofNat (a * 10 ^ d)) := by
  rw [JSNumber.ofNat_eq a ha]
  simp only [Utils.toHexadecimal, BigNumber.ofValue, JSNumber.toDecimal_nat a ha,
    BigNumber.round_of_le false a 0 (Nat.zero_le _), tenPow, bind, Except.bind, pure,
    Except.pure, BigNumber.times]
  simp only [Bool.xor_false, Nat.add_zero]
  rw [BigNumber.parseFloat_nat]

theorem Utils.toDecimal_nat_quotient (a d : Nat) (ha : a < 2 ^ 53) (X : Nat)
    (hX : a * 10 ^ DECIMAL_PLACES = X * 10 ^ d) :
    Utils.toDecimal (.number (JSNumber.ofNat a)) d
      = .ok (JSNumber.ofRatio false X (10 ^ DECIMAL_PLACES)) := by
  rw [JSNumber.ofNat_eq a ha]
  have hpow : (10 : Nat) ^ d ≠ 0 := Nat.ne_of_gt (Nat.pow_pos (by decide))
  simp only [Utils.toDecimal, BigNumber.ofValue, JSNumber.toDecimal_nat a ha,
    BigNumber.round_of_le false a 0 (Nat.zero_le _), tenPow, bind, Except.bind, pure,
    Except.pure, BigNumber.dividedBy, hpow, if_false]
  simp only [Bool.xor_false, Nat.pow_zero, Nat.mul_one]
  rw [hX, roundHalfUp_mul X _ (Nat.pow_pos (by decide)), BigNumber.parseFloat_places]

theorem BigNumber.parseFloat_fin (neg : Bool) (X k : Nat) (hk : k ≤ DECIMAL_PLACES)
    (hX : X ≠ 0) : BigNumber.parseFloat (.fin neg X k) = JSNumber.ofRatio neg X (10 ^ k) := by
  unfold BigNumber.parseFloat BigNumber.toString10
  rw [BigNumber.round_of_le neg X k hk]
  simp [hX, Decimal.toNumber]

theorem BigNumber.parseFloat_fin_false (X k : Nat) (hk : k ≤ DECIMAL_PLACES) :
    BigNumber.parseFloat (.fin false X k) = JSNumber.ofRatio false X (10 ^ k) := by
  by_cases hX : X = 0
  · subst hX
    unfold BigNumber.parseFloat BigNumber.toString10
    rw [BigNumber.round_of_le false 0 k hk]
    simp only [if_true, Decimal.toNumber]
    rw [JSNumber.ofRatio_zero, JSNumber.ofRatio_zero]
  · exact BigNumber.parseFloat_fin false X k hk hX

theorem shortestDecimal_pos (n : Nat) (hn : n ≠ 0) : 0 < (shortestDecimal n).1 := by
  unfold shortestDecimal
  cases hs : shortestFrom 18 n (decimalExponent n) with
  | none =>
    simp only
    exact Nat.mul_pos (Nat.pos_of_ne_zero hn) (Nat.pow_pos (by decide))
  | some r =>
    obtain ⟨s, e⟩ := r
    have h := shortestFrom_readsBack 18 n _ s e hs
    unfold readsBack at h
    simp only [Bool.and_eq_true, decide_eq_true_eq] at h
    simp only
    unfold scaledNum
    exact Nat.mul_pos h.1 (Nat.pow_pos (by decide))

/-- A numeral printed with a minus sign is not zero. -/
theorem JSNumber.toDecimal_sign (neg sg : Bool) (n c k : Nat)
    (hrepr : (JSNumber.fin neg n).toDecimal = .fin sg c k) : sg = false ∨ 0 < c := by
  unfold JSNumber.toDecimal at hrepr
  by_cases h0 : n = 0
  · simp only [h0, if_true, Decimal.fin.injEq] at hrepr
    exact Or.inl hrepr.1.symm
  · simp only [h0, if_false, Decimal.fin.injEq] at hrepr
    right
    rw [← hrepr.2.1]
    exact shortestDecimal_pos n h0

theorem Utils.toHexadecimal_decimal (neg sg : Bool) (n c k d : Nat)
    (hrepr : (JSNumber.fin neg n).toDecimal = .fin sg c k) (hk : k ≤ DECIMAL_PLACES) :
    Utils.toHexadecimal (.number (.fin neg n)) d
      = .ok (JSNumber.ofRatio sg (c * 10 ^ d) (10 ^ k)) := by
  have hc := JSNumber.toDecimal_sign neg sg n c k hrepr
  simp only [Utils.toHexadecimal, BigNumber.ofValue, hrepr, BigNumber.round_of_le sg c k hk,
    tenPow, bind, Except.bind, pure, Except.pure, BigNumber.times, Bool.xor_false, Nat.add_zero]
  rcases hc with hneg | hpos
  · subst hneg
    rw [BigNumber.parseFloat_fin_false _ _ hk]
  · rw [BigNumber.parseFloat_fin _ _ _ hk]
    exact Nat.mul_ne_zero (by omega) (Nat.ne_of_gt (Nat.pow_pos (by decide)))

theorem Utils.toDecimal_decimal (neg sg : Bool) (n c k d : Nat)
    (hrepr : (JSNumber.fin neg n).toDecimal = .fin sg c k) (hkd : k + d ≤ DECIMAL_PLACES) :
    Utils.toDecimal (.number (.fin neg n)) d
      = .ok (JSNumber.ofRatio sg c (10 ^ (k + d))) := by
  have hc := JSNumber.toDecimal_sign neg sg n c k hrepr
  have hk : k ≤ DECIMAL_PLACES := by omega
  have hpow : (10 : Nat) ^ d ≠ 0 := Nat.ne_of_gt (Nat.pow_pos (by decide))
  simp only [Utils.toDecimal, BigNumber.ofValue, hrepr, BigNumber.round_of_le sg c k hk,
    tenPow, bind, Except.bind, pure, Except.pure, BigNumber.dividedBy, hpow, if_false,
    Bool.xor_false, Nat.pow_zero, Nat.mul_one]
  have hsplit : (10 : Nat) ^ DECIMAL_PLACES
      = 10 ^ (DECIMAL_PLACES - (k + d)) * (10 ^ d * 10 ^ k) := by
    rw [← Nat.pow_add, ← Nat.pow_add]; congr 1; omega
  have hnum : c * 10 ^ DECIMAL_PLACES
      = c * 10 ^ (DECIMAL_PLACES - (k + d)) * (10 ^ d * 10 ^ k) := by
    rw [Nat.mul_assoc, ← hsplit]
  have hden : 0 < 10 ^ d * 10 ^ k := Nat.mul_pos (Nat.pow_pos (by decide)) (Nat.pow_pos (by decide))
  rw [hnum, roundHalfUp_mul _ _ hden]
  have hscale : JSNumber.ofRatio sg (c * 10 ^ (DECIMAL_PLACES - (k + d))) (10 ^ DECIMAL_PLACES)
      = JSNumber.ofRatio sg c (10 ^ (k + d)) := by
    have : (10 : Nat) ^ DECIMAL_PLACES = 10 ^ (k + d) * 10 ^ (DECIMAL_PLACES - (k + d)) := by
      rw [← Nat.pow_add]; congr 1; omega
    rw [this]
    exact JSNumber.ofRatio_scale sg c _ _ (Nat.pow_pos (by decide))
  rcases hc with hneg | hpos
  · subst hneg
    rw [BigNumber.parseFloat_fin_false _ _ (Nat.le_refl _), hscale]
  · rw [BigNumber.parseFloat_fin _ _ _ (Nat.le_refl _), hscale]
    exact Nat.mul_ne_zero (by omega) (Nat.ne_of_gt (Nat.pow_pos (by decide)))

theorem Utils.toDecimal_nat_multiple (b d : Nat) (hb : b * 10 ^ d < 2 ^ 53) :
    Utils.toDecimal (.number (JSNumber.ofNat (b * 10 ^ d))) d = .ok (JSNumber.ofNat b) := by
  rw [Utils.toDecimal_nat_quotient (b * 10 ^ d) d hb (b * 10 ^ DECIMAL_PLACES)
    (by rw [Nat.mul_right_comm])]
  have := JSNumber.ofRatio_scale false b 1 (10 ^ DECIMAL_PLACES) (Nat.pow_pos (by decide))
  rw [Nat.one_mul] at this
  rw [this]; rfl

theorem mul_pow_split (c d k : Nat) (h : k ≤ d) :
    c * 10 ^ d = c * 10 ^ (d - k) * 10 ^ k := by
  rw [Nat.mul_assoc, ← Nat.pow_add]; congr 2; omega

theorem pow_split (d k : Nat) (h : k ≤ d) : (10 : Nat) ^ d = 10 ^ k * 10 ^ (d - k) := by
  rw [← Nat.pow_add]; congr 1; omega

theorem mul_pow_swap (c d k p : Nat) (h : k ≤ d) (hp : k ≤ p) :
    c * 10 ^ (d - k) * 10 ^ p = c * 10 ^ (p - k) * 10 ^ d := by
  rw [Nat.mul_assoc, Nat.mul_assoc, ← Nat.pow_add, ← Nat.pow_add]
  congr 2; omega

theorem Utils.roundTrip_decimal (n c k d : Nat)
    (hdouble : (JSNumber.fin false n).isDouble = true)
    (hrepr : (JSNumber.fin false n).toDecimal = .fin false c k)
    (hk : k ≤ DECIMAL_PLACES) (hkd : k ≤ d) (hsafe : c * 10 ^ (d - k) < 2 ^ 53) :
    Utils.toHexadecimal (.number (.fin false n)) d = .ok (JSNumber.ofNat (c * 10 ^ (d - k)))
      ∧ Utils.roundTrip (.number (.fin false n)) d = .ok (.fin false n) := by
  have hback := JSNumber.toNumber_toDecimal n hdouble
  rw [hrepr] at hback
  simp only [Decimal.toNumber] at hback
  have hhex : Utils.toHexadecimal (.number (.fin false n)) d
      = .ok (JSNumber.ofNat (c * 10 ^ (d - k))) := by
    rw [Utils.toHexadecimal_decimal false false n c k d hrepr hk]
    have h1 := mul_pow_split c d k hkd
    have h2 := JSNumber.ofRatio_scale false (c * 10 ^ (d - k)) 1 (10 ^ k) (Nat.pow_pos (by decide))
    rw [Nat.one_mul] at h2
    rw [h1, h2]; rfl
  refine ⟨hhex, ?_⟩
  unfold Utils.roundTrip
  rw [hhex]
  simp only [bind, Except.bind]
  rw [Utils.toDecimal_nat_quotient (c * 10 ^ (d - k)) d hsafe (c * 10 ^ (DECIMAL_PLACES - k))
    (mul_pow_swap c d k DECIMAL_PLACES hkd hk)]
  have h3 := pow_split DECIMAL_PLACES k hk
  rw [h3, JSNumber.ofRatio_scale false c _ _ (Nat.pow_pos (by decide)), hback]

/-! ### Validation in the transfer methods -/

theorem solTransfer_negative (w : World) (toAddress amount : JSValue) (log : List Call)
    (h : (JSValue.parseFloat amount).lt (JSNumber.ofNat 0) = true) :
    SolanaWeb3.solTransfer w toAddress amount log = (.error (.str "transfer-amount-error"), log) := by
  simp [SolanaWeb3.solTransfer, Async.tryCatch, h, Async.throw]

theorem Token.transfer_negative (self : Token) (w : World) (toAddress amount tokenAddress : JSValue)
    (log : List Call) (h : (JSValue.parseFloat amount).lt (JSNumber.ofNat 0) = true) :
    self.transfer w toAddress amount tokenAddress log
      = (.error (.str "transfer-amount-error"), log) := by
  simp [Token.transfer, Async.tryCatch, h, Async.throw]

theorem JSNumber.ofNat_zero : JSNumber.ofNat 0 = .fin false 0 :=
  JSNumber.ofRatio_zero false 1

theorem JSNumber.not_lt_zero_of_gt (x b : JSNumber) (hb : b.signClear = true)
    (h : x.gt b = true) : x.lt (JSNumber.ofNat 0) = false := by
  rw [JSNumber.ofNat_zero]
  unfold JSNumber.gt at h
  cases b with
  | nan => simp [JSNumber.signClear] at hb
  | inf nb =>
    simp only [JSNumber.signClear, Bool.not_eq_true'] at hb
    subst hb
    cases x with
    | nan => simp [JSNumber.lt]
    | inf nx => simp [JSNumber.lt] at h
    | fin nx n => simp [JSNumber.lt] at h
  | fin nb m =>
    simp only [JSNumber.signClear, Bool.not_eq_true'] at hb
    subst hb
    cases x with
    | nan => simp [JSNumber.lt]
    | inf nx => cases nx <;> simp [JSNumber.lt] at h ⊢
    | fin nx n => cases nx <;> simp [JSNumber.lt] at h ⊢

theorem JSNumber.ofRatio_signClear (p q : Nat) : (JSNumber.ofRatio false p q).signClear = true := by
  unfold JSNumber.ofRatio
  simp only
  split <;> rfl

theorem BigNumber.parseFloat_signClear (c k : Nat) :
    (BigNumber.parseFloat (.fin false c k)).signClear = true := by
  unfold BigNumber.parseFloat BigNumber.toString10 BigNumber.round
  by_cases hk : k ≤ DECIMAL_PLACES
  · by_cases hc : c = 0
    · simp [hk, hc, Decimal.toNumber, JSNumber.ofRatio_signClear]
    · simp [hk, hc, Decimal.toNumber, JSNumber.ofRatio_signClear]
  · by_cases hc : roundHalfUp c (10 ^ (k - DECIMAL_PLACES)) = 0
    · simp [hk, hc, Decimal.toNumber, JSNumber.ofRatio_signClear]
    · simp [hk, hc, Decimal.toNumber, JSNumber.ofRatio_signClear]

theorem JSNumber.prints_signClear (x : JSNumber) (hx : x.signClear = true) :
    (∃ c k, x.toDecimal = .fin false c k) ∨ x.toDecimal = .inf false := by
  cases x with
  | nan => simp [JSNumber.signClear] at hx
  | inf neg =>
    simp only [JSNumber.signClear, Bool.not_eq_true'] at hx
    subst hx; right; rfl
  | fin neg n =>
    simp only [JSNumber.signClear, Bool.not_eq_true'] at hx
    subst hx; left
    unfold JSNumber.toDecimal
    by_cases h0 : n = 0
    · exact ⟨0, 0, by simp [h0]⟩
    · exact ⟨(shortestDecimal n).1, (shortestDecimal n).2, by simp [h0]⟩

theorem Utils.toDecimal_signClear (x : JSNumber) (d : Nat) (hx : x.signClear = true) :
    ∃ b, Utils.toDecimal (.number x) d = .ok b ∧ b.signClear = true := by
  have hpow : (10 : Nat) ^ d ≠ 0 := Nat.ne_of_gt (Nat.pow_pos (by decide))
  rcases JSNumber.prints_signClear x hx with ⟨c, k, h⟩ | h
  · refine ⟨BigNumber.parseFloat ((BigNumber.round (.fin false c k)).dividedBy (tenPow d)),
      ?_, ?_⟩
    · simp only [Utils.toDecimal, BigNumber.ofValue, h, bind, Except.bind, pure, Except.pure]
    · unfold BigNumber.round
      by_cases hk : k ≤ DECIMAL_PLACES
      · simp only [hk, if_true, tenPow, BigNumber.dividedBy, hpow, if_false, Bool.xor_false]
        exact BigNumber.parseFloat_signClear _ _
      · simp only [hk, if_false, tenPow, BigNumber.dividedBy, hpow, Bool.xor_false]
        exact BigNumber.parseFloat_signClear _ _
  · refine ⟨.inf false, ?_, rfl⟩
    simp only [Utils.toDecimal, BigNumber.ofValue, h, bind, Except.bind, pure, Except.pure,
      BigNumber.round, tenPow, BigNumber.dividedBy, Bool.xor_false]
    rfl

theorem getSolBalance_run (w : World) (log : List Call) :
    (∃ e, SolanaWeb3.getSolBalance w log = (.error e, log ++ [Call.getBalance w.publicKey]))
    ∨ (∃ b, SolanaWeb3.getSolBalance w log = (.ok b, log ++ [Call.getBalance w.publicKey])
        ∧ b.signClear = true) := by
  unfold SolanaWeb3.getSolBalance SolanaWeb3.getConnectedPublicKey
  simp only [bind, Async.bind, Async.call]
  cases hbal : w.getBalance log w.publicKey with
  | error e => left; exact ⟨e, rfl⟩
  | ok lamports =>
    right
    obtain ⟨b, hb, hs⟩ := Utils.toDecimal_signClear (JSNumber.ofNat lamports) 9
      (JSNumber.ofRatio_signClear _ _)
    exact ⟨b, by simp [Async.ofExcept, hb], hs⟩

theorem solTransfer_insufficient (w : World) (toAddress amount : JSValue) (log log1 : List Call)
    (balance : JSNumber) (hbal : SolanaWeb3.getSolBalance w log = (.ok balance, log1))
    (h : (JSValue.parseFloat amount).gt balance = true) :
    SolanaWeb3.solTransfer w toAddress amount log = (.error (.str "insufficient-balance"), log1)
      ∧ log1 = log ++ [Call.getBalance w.publicKey] := by
  rcases getSolBalance_run w log with ⟨e, he⟩ | ⟨b, hb, hs⟩
  · rw [he] at hbal; cases hbal
  · rw [hb] at hbal
    simp only [Prod.mk.injEq, Except.ok.injEq] at hbal
    obtain ⟨h1, h2⟩ := hbal
    subst h1
    have hneg := JSNumber.not_lt_zero_of_gt _ _ hs h
    refine ⟨?_, h2.symm⟩
    simp [SolanaWeb3.solTransfer, Async.tryCatch, hneg, Async.throw, bind, Async.bind, hb, h, h2]

/-- What a run of `getInfo` can add to the log and what it can return. -/
theorem Token.getInfo_run (self : Token) (w : World) (tokenAddress : JSValue) (log : List Call) :
    ∃ ext, (self.getInfo w tokenAddress log).2 = log ++ ext
      ∧ (∀ c ∈ ext, c.isTransaction = false)
      ∧ (∀ info, (self.getInfo w tokenAddress log).1 = .ok info → info.uiAmount.signClear = true) := by
  unfold Token.getInfo Token.instance newPublicKey SolanaWeb3.getConnectedPublicKey
  simp only [bind, Async.bind, Async.call, Async.tryCatch, pure, Async.pure, Async.throw]
  generalize self.tokenAddress.or tokenAddress = t
  generalize self.tokenAddress.or t = t2
  cases h1 : w.newPublicKey log t with
  | error e => exact ⟨[Call.newPublicKey t], rfl, by simp [Call.isTransaction], by simp⟩
  | ok pk =>
    simp only
    cases h2 : w.newPublicKey (log ++ [Call.newPublicKey t]) t2 with
    | error e => exact ⟨[Call.newPublicKey t, Call.newPublicKey t2], by simp, by simp [Call.isTransaction], by simp⟩
    | ok pk2 =>
      simp only
      cases h3 : w.getAssociatedTokenAddress
          (log ++ [Call.newPublicKey t] ++ [Call.newPublicKey t2]) pk w.publicKey with
      | error e => exact ⟨[Call.newPublicKey t, Call.newPublicKey t2,
          Call.getAssociatedTokenAddress pk w.publicKey], by simp, by simp [Call.isTransaction], by simp⟩
      | ok acct =>
        simp only
        cases h4 : w.getTokenAccountBalance
            (log ++ [Call.newPublicKey t] ++ [Call.newPublicKey t2]
              ++ [Call.getAssociatedTokenAddress pk w.publicKey]) acct with
        | ok ta =>
          refine ⟨[Call.newPublicKey t, Call.newPublicKey t2,
            Call.getAssociatedTokenAddress pk w.publicKey, Call.getTokenAccountBalance acct], by simp, by simp [Call.isTransaction], ?_⟩
          intro info hinfo
          simp only [Except.ok.injEq] at hinfo
          subst hinfo
          rfl
        | error e =>
          simp only
          cases hl : self.tokenList with
          | none =>
            exact ⟨[Call.newPublicKey t, Call.newPublicKey t2,
                Call.getAssociatedTokenAddress pk w.publicKey, Call.getTokenAccountBalance acct],
              by simp [Async.throw], by simp [Call.isTransaction], by simp [Async.throw]⟩
          | some tl =>
            simp only
            cases hg : tokenListGet tl t with
            | none =>
              exact ⟨[Call.newPublicKey t, Call.newPublicKey t2,
                Call.getAssociatedTokenAddress pk w.publicKey, Call.getTokenAccountBalance acct],
                by simp [Async.throw], by simp [Call.isTransaction], by simp [Async.throw]⟩
            | some entry =>
              refine ⟨[Call.newPublicKey t, Call.newPublicKey t2,
                Call.getAssociatedTokenAddress pk w.publicKey, Call.getTokenAccountBalance acct],
                by simp [Async.pure], by simp [Call.isTransaction], ?_⟩
              intro info hinfo
              simp only [Async.pure, Except.ok.injEq] at hinfo
              subst hinfo
              simp only
              rw [JSNumber.ofNat_zero]; rfl

theorem Token.getBalance_run (self : Token) (w : World) (tokenAddress : JSValue)
    (log log1 : List Call) (balance : JSNumber)
    (hbal : self.getBalance w tokenAddress log = (.ok balance, log1)) :
    balance.signClear = true
      ∧ ∃ ext, log1 = log ++ ext ∧ ∀ c ∈ ext, c.isTransaction = false := by
  obtain ⟨ext, hlog, htx, hsign⟩ := Token.getInfo_run self w (self.tokenAddress.or tokenAddress) log
  unfold Token.getBalance at hbal
  simp only [bind, Async.bind, pure, Async.pure] at hbal
  rcases hrun : self.getInfo w (self.tokenAddress.or tokenAddress) log with ⟨r, l⟩
  rw [hrun] at hbal hlog hsign
  cases r with
  | error e => simp at hbal
  | ok info =>
    simp only [Prod.mk.injEq, Except.ok.injEq] at hbal
    obtain ⟨h1, h2⟩ := hbal
    subst h1; subst h2
    exact ⟨hsign info rfl, ext, hlog, htx⟩

theorem Token.transfer_insufficient (self : Token) (w : World)
    (toAddress amount tokenAddress : JSValue) (log log1 : List Call) (balance : JSNumber)
    (hbal : self.getBalance w (self.tokenAddress.or tokenAddress) log = (.ok balance, log1))
    (h : (JSValue.parseFloat amount).gt balance = true) :
    self.transfer w toAddress amount tokenAddress log
        = (.error (.str "insufficient-balance"), log1)
      ∧ ∃ ext, log1 = log ++ ext ∧ ∀ c ∈ ext, c.isTransaction = false := by
  obtain ⟨hs, hext⟩ := Token.getBalance_run self w _ log log1 balance hbal
  have hneg := JSNumber.not_lt_zero_of_gt _ _ hs h
  refine ⟨?_, hext⟩
  simp [Token.transfer, Async.tryCatch, hneg, Async.throw, bind, Async.bind, hbal, h]

/-! ### Dispatch and `isNumeric` -/

theorem transfer_eq (self : SolanaWeb3) (w : World) (toAddress amount tokenAddress : JSValue) :
    self.transfer w toAddress amount tokenAddress =
      if tokenAddress.truthy = false ∨ tokenAddress.looseEqString "SOL" = true then
        .promise (SolanaWeb3.solTransfer w toAddress amount)
      else .promise (self.tokenTransfer w toAddress amount tokenAddress) := by
  unfold SolanaWeb3.transfer SolanaWeb3.tokenTransfer
  by_cases hu : tokenAddress = .undefined
  · subst hu
    simp [JSValue.truthy]
  · simp only [hu, if_false]
    by_cases ht : tokenAddress.truthy = true
    · by_cases hs : tokenAddress.looseEqString "SOL" = true
      · simp [ht, hs]
      · simp [ht, hs]
    · simp [ht]

theorem Utils.isNumeric_eq (val : JSValue) :
    Utils.isNumeric val =
      match val with
      | .string s =>
        decide ((stringToNumberText s.toList).toNumber = .nan)
          && decide ((parseFloatText s.toList).toNumber = .nan)
      | _ => true := by
  have hnan : ∀ x : JSNumber, x.isNaN = decide (x = .nan) := by
    intro x; cases x <;> simp [JSNumber.isNaN]
  cases val <;> simp [Utils.isNumeric, JSValue.typeof, JSValue.isNaN, JSValue.parseFloat, hnan]

/-! ### The printed digits do not end in a zero -/

theorem digitsAt_mem (n : Nat) (e : Int) (s : Nat) (h : digitsAt n e = some s) :
    s = n * scaledDen e / (2 ^ subnormalBits * 10 ^ e.toNat)
      ∨ s = n * scaledDen e / (2 ^ subnormalBits * 10 ^ e.toNat) + 1 := by
  unfold digitsAt at h
  simp only at h
  split at h
  · split at h
    · cases h; exact Or.inl rfl
    · split at h
      · cases h; exact Or.inr rfl
      · split at h
        · cases h; exact Or.inl rfl
        · cases h; exact Or.inr rfl
  · split at h
    · cases h; exact Or.inl rfl
    · split at h
      · cases h; exact Or.inr rfl
      · cases h

theorem digitsAt_ne_none (n : Nat) (e : Int)
    (h : readsBack n (n * scaledDen e / (2 ^ subnormalBits * 10 ^ e.toNat)) e = true
      ∨ readsBack n (n * scaledDen e / (2 ^ subnormalBits * 10 ^ e.toNat) + 1) e = true) :
    digitsAt n e ≠ none := by
  unfold digitsAt
  simp only
  rcases h with h | h
  · by_cases h2 : readsBack n (n * scaledDen e / (2 ^ subnormalBits * 10 ^ e.toNat) + 1) e = true
    · simp only [h, h2, Bool.and_self, if_true]
      split
      · simp
      · split
        · simp
        · split <;> simp
    · simp [h, h2]
  · by_cases h1 : readsBack n (n * scaledDen e / (2 ^ subnormalBits * 10 ^ e.toNat)) e = true
    · simp only [h, h1, Bool.and_self, if_true]
      split
      · simp
      · split
        · simp
        · split <;> simp
    · simp [h, h1]

theorem int_cases (e : Int) : (∃ m : Nat, e = (m : Int)) ∨ (∃ m : Nat, e = -((m : Int) + 1)) := by
  by_cases h : e < 0
  · right
    exact ⟨(-e - 1).toNat, by omega⟩
  · left
    exact ⟨e.toNat, by omega⟩

theorem scaled_shift (t : Nat) (e : Int) :
    roundNearestEven (scaledNum (10 * t) e) (scaledDen e)
      = roundNearestEven (scaledNum t (e + 1)) (scaledDen (e + 1)) := by
  rcases int_cases e with ⟨m, rfl⟩ | ⟨m, rfl⟩
  · have h1 : ((m : Int) + 1) = ((m + 1 : Nat) : Int) := by push_cast; rfl
    rw [h1, scaledNum_natCast, scaledNum_natCast, scaledDen_natCast, scaledDen_natCast]
    congr 1
    rw [Nat.pow_succ, Nat.mul_comm 10 t, Nat.mul_assoc, Nat.mul_comm 10]
  · have h1 : (-((m : Int) + 1) + 1) = -(m : Int) := by omega
    rw [h1]
    have ha : scaledNum (10 * t) (-((m : Int) + 1)) = t * 10 := by
      unfold scaledNum
      have : (-((m : Int) + 1)).toNat = 0 := by omega
      rw [this, Nat.pow_zero, Nat.mul_one, Nat.mul_comm]
    have hb : scaledDen (-((m : Int) + 1)) = 10 ^ m * 10 := by
      unfold scaledDen
      have : (- -((m : Int) + 1)).toNat = m + 1 := by omega
      rw [this, Nat.pow_succ]
    have hc : scaledNum t (-(m : Int)) = t := by
      unfold scaledNum
      have : (-(m : Int)).toNat = 0 := by omega
      rw [this, Nat.pow_zero, Nat.mul_one]
    have hd : scaledDen (-(m : Int)) = 10 ^ m := by
      unfold scaledDen
      have : (- -(m : Int)).toNat = m := by omega
      rw [this]
    rw [ha, hb, hc, hd, roundNearestEven_scale t (10 ^ m) 10 (by decide)]

theorem readsBack_shift (n t : Nat) (e : Int) (h : readsBack n (10 * t) e = true) :
    readsBack n t (e + 1) = true := by
  unfold readsBack at h ⊢
  simp only [Bool.and_eq_true, decide_eq_true_eq] at h ⊢
  refine ⟨by omega, ?_⟩
  rw [← scaled_shift]; exact h.2

theorem floor_shift (n : Nat) (e : Int) :
    n * scaledDen (e + 1) / (2 ^ subnormalBits * 10 ^ (e + 1).toNat)
      = n * scaledDen e / (2 ^ subnormalBits * 10 ^ e.toNat) / 10 := by
  rcases int_cases e with ⟨m, rfl⟩ | ⟨m, rfl⟩
  · have h1 : ((m : Int) + 1) = ((m + 1 : Nat) : Int) := by push_cast; rfl
    rw [h1, scaledDen_natCast, scaledDen_natCast, Int.toNat_ofNat, Int.toNat_ofNat,
      Nat.div_div_eq_div_mul, Nat.pow_succ, Nat.mul_assoc]
  · have h1 : (-((m : Int) + 1) + 1) = -(m : Int) := by omega
    rw [h1]
    have hb : scaledDen (-((m : Int) + 1)) = 10 ^ m * 10 := by
      unfold scaledDen
      have : (- -((m : Int) + 1)).toNat = m + 1 := by omega
      rw [this, Nat.pow_succ]
    have hd : scaledDen (-(m : Int)) = 10 ^ m := by
      unfold scaledDen
      have : (- -(m : Int)).toNat = m := by omega
      rw [this]
    have he1 : (-((m : Int) + 1)).toNat = 0 := by omega
    have he2 : (-(m : Int)).toNat = 0 := by omega
    rw [hb, hd, he1, he2, Nat.div_div_eq_div_mul, ← Nat.mul_assoc,
      Nat.mul_div_mul_right _ _ (by decide : 0 < 10)]

/-- A digit string found right below an exponent at which nothing reads back does not end in
a zero: otherwise the string without that zero would have read back one exponent higher. -/
theorem digitsAt_not_dvd (n : Nat) (e : Int) (s : Nat)
    (hnone : digitsAt n (e + 1) = none) (h : digitsAt n e = some s) : ¬ 10 ∣ s := by
  intro hdvd
  obtain ⟨t, rfl⟩ := hdvd
  have hback := readsBack_shift n t e (digitsAt_readsBack n e _ h)
  apply digitsAt_ne_none n (e + 1) _ hnone
  rw [floor_shift]
  rcases digitsAt_mem n e _ h with hm | hm
  · left
    have : n * scaledDen e / (2 ^ subnormalBits * 10 ^ e.toNat) / 10 = t := by
      rw [← hm]; omega
    rw [this]; exact hback
  · right
    have : n * scaledDen e / (2 ^ subnormalBits * 10 ^ e.toNat) / 10 + 1 = t := by
      omega
    rw [this]; exact hback

theorem shortestFrom_found : ∀ (fuel n : Nat) (e : Int) (s : Nat) (e1 : Int),
    shortestFrom fuel n e = some (s, e1) →
      digitsAt n e1 = some s ∧ (e1 = e ∨ digitsAt n (e1 + 1) = none) := by
  intro fuel
  induction fuel with
  | zero => intro n e s e1 h; simp [shortestFrom] at h
  | succ fuel ih =>
    intro n e s e1 h
    unfold shortestFrom at h
    cases hd : digitsAt n e with
    | none =>
      rw [hd] at h
      obtain ⟨h1, h2⟩ := ih n (e - 1) s e1 h
      refine ⟨h1, Or.inr ?_⟩
      rcases h2 with h2 | h2
      · have : e1 + 1 = e := by omega
        rw [this]; exact hd
      · exact h2
    | some s0 =>
      rw [hd] at h
      simp only [Option.some.injEq, Prod.mk.injEq] at h
      obtain ⟨h1, h2⟩ := h
      subst h1; subst h2
      exact ⟨hd, Or.inl rfl⟩

theorem decLen_spec : ∀ (f m : Nat), m < 10 ^ f → m < 10 ^ decLen f m := by
  intro f
  induction f with
  | zero => intro m hm; simpa [decLen] using hm
  | succ f ih =>
    intro m hm
    by_cases h0 : m = 0
    · subst h0; exact Nat.pow_pos (by decide)
    · simp only [decLen, h0, if_false]
      have h1 : m / 10 < 10 ^ f := by
        rw [Nat.div_lt_iff_lt_mul (by decide)]
        rw [Nat.pow_succ] at hm; exact hm
      have h2 := ih (m / 10) h1
      rw [Nat.pow_succ]
      omega

theorem leadingZeros_spec : ∀ (fuel n j : Nat), n * 10 ^ j < 2 ^ subnormalBits →
    n * 10 ^ leadingZeros fuel n j < 2 ^ subnormalBits := by
  intro fuel
  induction fuel with
  | zero => intro n j h; simpa [leadingZeros] using h
  | succ fuel ih =>
    intro n j h
    unfold leadingZeros
    split
    · exact h
    · rename_i hlt
      exact ih n (j + 1) (by omega)

theorem floor_decimalExponent (n : Nat) (hn : n < overflowBound) :
    n * scaledDen (decimalExponent n)
      / (2 ^ subnormalBits * 10 ^ (decimalExponent n).toNat) = 0 := by
  unfold decimalExponent
  split
  · rw [scaledDen_natCast, Int.toNat_ofNat, Nat.mul_one, ← Nat.div_div_eq_div_mul]
    apply Nat.div_eq_of_lt
    apply decLen_spec
    have h1 : n / 2 ^ subnormalBits < 2 ^ 1024 := by
      rw [Nat.div_lt_iff_lt_mul two_pow_subnormalBits_pos, ← Nat.pow_add]
      exact hn
    have h2 : (2 : Nat) ^ 1024 < 10 ^ 310 := by decide!
    exact Nat.lt_trans h1 h2
  · rename_i hlt
    have h0 : n * 10 ^ 0 < 2 ^ subnormalBits := by
      rw [Nat.pow_zero, Nat.mul_one]; omega
    have h1 := leadingZeros_spec 330 n 0 h0
    have hd : scaledDen (-((leadingZeros 330 n 0 : Nat) : Int)) = 10 ^ leadingZeros 330 n 0 := by
      unfold scaledDen
      have : (- -((leadingZeros 330 n 0 : Nat) : Int)).toNat = leadingZeros 330 n 0 := by omega
      rw [this]
    have he : (-((leadingZeros 330 n 0 : Nat) : Int)).toNat = 0 := by omega
    rw [hd, he, Nat.pow_zero, Nat.mul_one]
    exact Nat.div_eq_of_lt h1

/-- The digits that the search of `shortestDecimal` finds never end in a zero; with a
negative exponent they are the decimal places that `Number::toString` prints. -/
theorem shortestFrom_not_dvd (n : Nat) (hn : n < overflowBound) (s : Nat) (e : Int)
    (h : shortestFrom 18 n (decimalExponent n) = some (s, e)) : ¬ 10 ∣ s := by
  obtain ⟨hd, hcase⟩ := shortestFrom_found 18 n _ s e h
  rcases hcase with hcase | hcase
  · subst hcase
    have hpos := digitsAt_readsBack n _ s hd
    unfold readsBack at hpos
    simp only [Bool.and_eq_true, decide_eq_true_eq] at hpos
    have hfloor := floor_decimalExponent n hn
    rcases digitsAt_mem n _ s hd with hm | hm
    · rw [hfloor] at hm; omega
    · rw [hfloor] at hm; omega
  · exact digitsAt_not_dvd n e s hcase hd

/-- When the search succeeds and the decimal printed for a double has decimal places, its last
digit is not a zero: the count `k` of `shortestDecimal` is the number of decimal places of the
printed numeral. -/
theorem shortestDecimal_not_dvd (n : Nat) (hn : n < overflowBound)
    (hfound : shortestFrom 18 n (decimalExponent n) ≠ none)
    (hk : 0 < (shortestDecimal n).2) : ¬ 10 ∣ (shortestDecimal n).1 := by
  unfold shortestDecimal at hk ⊢
  cases hs : shortestFrom 18 n (decimalExponent n) with
  | none => exact absurd hs hfound
  | some r =>
    obtain ⟨s, e⟩ := r
    rw [hs] at hk
    simp only at hk ⊢
    have he : e.toNat = 0 := by omega
    unfold scaledNum
    rw [he, Nat.pow_zero, Nat.mul_one]
    exact shortestFrom_not_dvd n hn s e hs


/-! ## Claims -/

/-- C1 (as stated) fails.  The amount `0.20000000000000007` with one decimal comes back as
`0.2000000000000001`: the base units `2.0000000000000007` are not a double and are rounded to
`2.000000000000001`.  The amount `1` with 400 decimals comes back as `Infinity`. -/
theorem Utils.roundTrip_not_identity :
    Utils.roundTrip (.number (JSNumber.ofRatio false 20000000000000007 (10 ^ 17))) 1
        = .ok (JSNumber.ofRatio false 2000000000000001 (10 ^ 16))
      ∧ JSNumber.ofRatio false 2000000000000001 (10 ^ 16)
          ≠ JSNumber.ofRatio false 20000000000000007 (10 ^ 17)
      ∧ Utils.roundTrip (.number (JSNumber.ofNat 1)) 400 = .ok (.inf false) := by
  decide!

/-- C1 (amended).  Let `a` be a non-negative finite Number that `a.toString(10)` prints as the
decimal `c / 10^k`.  If `k` is at most 20 and at most `d`, and the base units `c * 10^(d-k)`
are an integer below `2^53`, then `toHexadecimal(a, d)` is exactly that integer and
`toDecimal(toHexadecimal(a, d), d)` is `a`. -/
theorem Utils.roundTrip_exact (n c k d : Nat)
    (hdouble : (JSNumber.fin false n).isDouble = true)
    (hrepr : (JSNumber.fin false n).toDecimal = .fin false c k)
    (hk : k ≤ DECIMAL_PLACES) (hkd : k ≤ d) (hsafe : c * 10 ^ (d - k) < 2 ^ 53) :
    Utils.toHexadecimal (.number (.fin false n)) d = .ok (JSNumber.ofNat (c * 10 ^ (d - k)))
      ∧ Utils.roundTrip (.number (.fin false n)) d = .ok (.fin false n) :=
  Utils.roundTrip_decimal n c k d hdouble hrepr hk hkd hsafe

/-- C1 (amended) at the amount `0.5` (numerator `2^1073`) with nine decimals, where the base
units are `500000000`, and at the amount `0.000001`, which prints with six decimal places,
with six decimals, where the base units are `1`: both amounts come back. -/
theorem Utils.roundTrip_exact_witness :
    (JSNumber.fin false (2 ^ 1073)).toDecimal = .fin false 5 1
      ∧ (Utils.toHexadecimal (.number (.fin false (2 ^ 1073))) 9
          = .ok (JSNumber.ofNat (5 * 10 ^ (9 - 1)))
        ∧ Utils.roundTrip (.number (.fin false (2 ^ 1073))) 9 = .ok (.fin false (2 ^ 1073)))
      ∧ JSNumber.ofRatio false 1 (10 ^ 6) = .fin false (roundNearestEven 1 (10 ^ 6))
      ∧ (JSNumber.fin false (roundNearestEven 1 (10 ^ 6))).toDecimal = .fin false 1 6
      ∧ (Utils.toHexadecimal (.number (.fin false (roundNearestEven 1 (10 ^ 6)))) 6
          = .ok (JSNumber.ofNat (1 * 10 ^ (6 - 6)))
        ∧ Utils.roundTrip (.number (.fin false (roundNearestEven 1 (10 ^ 6)))) 6
          = .ok (.fin false (roundNearestEven 1 (10 ^ 6)))) :=
  ⟨by decide!,
    Utils.roundTrip_exact (2 ^ 1073) 5 1 9 (by decide!) (by decide!) (by decide!) (by decide!)
      (by decide!),
    by decide!, by decide!,
    Utils.roundTrip_exact (roundNearestEven 1 (10 ^ 6)) 1 6 6 (by decide!) (by decide!)
      (by decide!) (by decide!) (by decide!)⟩

/-- C2 (as stated) fails.  `toDecimal(1, 21)` is `0`, not `1e-21`: the quotient is rounded to 20
decimal places.  `toHexadecimal(1, 400)` is `Infinity`. -/
theorem Utils.toDecimal_not_exact :
    Utils.toDecimal (.number (JSNumber.ofNat 1)) 21 = .ok (.fin false 0)
      ∧ JSNumber.ofRatio false 1 (10 ^ 21) ≠ .fin false 0
      ∧ Utils.toHexadecimal (.number (JSNumber.ofNat 1)) 400 = .ok (.inf false) := by
  decide!

/-- C2 (amended).  Let `a` be a finite Number that `a.toString(10)` prints as the decimal
`c / 10^k`, with a minus sign or without (`-0` prints as `0`), with `k` at most 20.  Then
`toHexadecimal(a, d)` is the Number nearest to `c * 10^d / 10^k` with that sign and, when
`k + d` is at most 20, `toDecimal(a, d)` is the Number nearest to `c / 10^(k+d)` with that
sign.  For a natural number `m` below `2^53`, `toHexadecimal(m, d)` is the Number nearest to
`m * 10^d`, and `toDecimal(b * 10^d, d)` is `b` when `b * 10^d` is below `2^53`.  In particular
`toHexadecimal(10, 2)` is `1000`, `toDecimal(1000, 2)` is `10`, and both map `0` to `0`. -/
theorem Utils.conversions_correctly_rounded (neg sg : Bool) (n c k d : Nat)
    (hrepr : (JSNumber.fin neg n).toDecimal = .fin sg c k) (hk : k ≤ DECIMAL_PLACES) :
    Utils.toHexadecimal (.number (.fin neg n)) d
        = .ok (JSNumber.ofRatio sg (c * 10 ^ d) (10 ^ k))
      ∧ (k + d ≤ DECIMAL_PLACES →
          Utils.toDecimal (.number (.fin neg n)) d = .ok (JSNumber.ofRatio sg c (10 ^ (k + d))))
      ∧ (∀ m, m < 2 ^ 53 →
          Utils.toHexadecimal (.number (JSNumber.ofNat m)) d = .ok (JSNumber.ofNat (m * 10 ^ d)))
      ∧ (∀ b, b * 10 ^ d < 2 ^ 53 →
          Utils.toDecimal (.number (JSNumber.ofNat (b * 10 ^ d))) d = .ok (JSNumber.ofNat b))
      ∧ Utils.toHexadecimal (.number (JSNumber.ofNat 10)) 2 = .ok (JSNumber.ofNat 1000)
      ∧ Utils.toDecimal (.number (JSNumber.ofNat 1000)) 2 = .ok (JSNumber.ofNat 10)
      ∧ Utils.toHexadecimal (.number (JSNumber.ofNat 0)) d = .ok (JSNumber.ofNat 0)
      ∧ Utils.toDecimal (.number (JSNumber.ofNat 0)) d = .ok (JSNumber.ofNat 0) := by
  refine ⟨Utils.toHexadecimal_decimal neg sg n c k d hrepr hk,
    fun hkd => Utils.toDecimal_decimal neg sg n c k d hrepr hkd,
    fun m hm => Utils.toHexadecimal_nat m d hm,
    fun b hb => Utils.toDecimal_nat_multiple b d hb, ?_, ?_, ?_, ?_⟩
  · exact Utils.toHexadecimal_nat 10 2 (by decide)
  · exact Utils.toDecimal_nat_multiple 10 2 (by decide)
  · have h := Utils.toHexadecimal_nat 0 d (Nat.pow_pos (by decide))
    rw [Nat.zero_mul] at h
    exact h
  · have h := Utils.toDecimal_nat_multiple 0 d (by
      rw [Nat.zero_mul]; exact Nat.pow_pos (by decide))
    rw [Nat.zero_mul] at h
    exact h

/-- C2 (amended) at the amount `0.5` with nine decimals, at the amount `1e-20`, which prints
with twenty decimal places, at `toDecimal(0.000001, 14)`, whose quotient has exactly twenty
decimal places, at the amount `-0.5` and at `-0`. -/
theorem Utils.conversions_correctly_rounded_witness :
    (Utils.toHexadecimal (.number (.fin false (2 ^ 1073))) 9
        = .ok (JSNumber.ofRatio false (5 * 10 ^ 9) (10 ^ 1))
      ∧ Utils.toDecimal (.number (.fin false (2 ^ 1073))) 9
        = .ok (JSNumber.ofRatio false 5 (10 ^ (1 + 9)))
      ∧ Utils.toHexadecimal (.number (JSNumber.ofNat 7)) 9 = .ok (JSNumber.ofNat (7 * 10 ^ 9)))
      ∧ (JSNumber.fin false (roundNearestEven 1 (10 ^ 20))).toDecimal = .fin false 1 20
      ∧ (Utils.toHexadecimal (.number (.fin false (roundNearestEven 1 (10 ^ 20)))) 20
          = .ok (JSNumber.ofRatio false (1 * 10 ^ 20) (10 ^ 20))
        ∧ Utils.toDecimal (.number (.fin false (roundNearestEven 1 (10 ^ 20)))) 0
          = .ok (JSNumber.ofRatio false 1 (10 ^ (20 + 0))))
      ∧ (JSNumber.fin false (roundNearestEven 1 (10 ^ 6))).toDecimal = .fin false 1 6
      ∧ Utils.toDecimal (.number (.fin false (roundNearestEven 1 (10 ^ 6)))) 14
          = .ok (JSNumber.ofRatio false 1 (10 ^ (6 + 14)))
      ∧ Utils.toHexadecimal (.number (.fin true (2 ^ 1073))) 9
          = .ok (JSNumber.ofRatio true (5 * 10 ^ 9) (10 ^ 1))
      ∧ Utils.toHexadecimal (.number (.fin true 0)) 9
          = .ok (JSNumber.ofRatio false (0 * 10 ^ 9) (10 ^ 0)) :=
  have h := Utils.conversions_correctly_rounded false false (2 ^ 1073) 5 1 9 (by decide!)
    (by decide!)
  have h20 := Utils.conversions_correctly_rounded false false (roundNearestEven 1 (10 ^ 20))
    1 20 20 (by decide!) (by decide!)
  have h0 := Utils.conversions_correctly_rounded false false (roundNearestEven 1 (10 ^ 20))
    1 20 0 (by decide!) (by decide!)
  have h6 := Utils.conversions_correctly_rounded false false (roundNearestEven 1 (10 ^ 6))
    1 6 14 (by decide!) (by decide!)
  have hm := Utils.conversions_correctly_rounded true true (2 ^ 1073) 5 1 9 (by decide!)
    (by decide!)
  have hz := Utils.conversions_correctly_rounded true false 0 0 0 9 (by decide!) (by decide!)
  ⟨⟨h.1, h.2.1 (by decide!), h.2.2.1 7 (by decide!)⟩, by decide!,
    ⟨h20.1, h0.2.1 (by decide!)⟩, by decide!, h6.2.1 (by decide!), hm.1, hz.1⟩

/-- C3.  A transfer, native or token, whose amount parses to a negative number rejects with
`'transfer-amount-error'` and leaves the log of calls as it was: no balance is queried, no
instruction is built and no transaction is sent, whatever the world would have answered. -/
theorem transfer_rejects_negative_amount (self : Token) (w : World)
    (toAddress amount tokenAddress : JSValue) (log : List Call)
    (h : (JSValue.parseFloat amount).lt (JSNumber.ofNat 0) = true) :
    SolanaWeb3.solTransfer w toAddress amount log = (.error (.str "transfer-amount-error"), log)
      ∧ self.transfer w toAddress amount tokenAddress log
          = (.error (.str "transfer-amount-error"), log) :=
  ⟨solTransfer_negative w toAddress amount log h,
    Token.transfer_negative self w toAddress amount tokenAddress log h⟩

/-- C3 at the amounts `"-1"` (native) and `-1.5` (token), in a world that would accept
everything. -/
theorem transfer_rejects_negative_amount_witness :
    (JSValue.parseFloat (.string "-1")).lt (JSNumber.ofNat 0) = true
      ∧ SolanaWeb3.solTransfer (World.accepting 5000000000 ⟨"5000", 3, 5 * 2 ^ 1074, "5"⟩)
          (.string "recipient") (.string "-1") []
          = (.error (.str "transfer-amount-error"), [])
      ∧ Token.transfer ⟨.undefined, none⟩ (World.accepting 5000000000 ⟨"5000", 3, 5 * 2 ^ 1074, "5"⟩)
          (.string "recipient") (.string "-1") (.string "mint") []
          = (.error (.str "transfer-amount-error"), []) :=
  ⟨by decide!,
    transfer_rejects_negative_amount ⟨.undefined, none⟩
      (World.accepting 5000000000 ⟨"5000", 3, 5 * 2 ^ 1074, "5"⟩)
      (.string "recipient") (.string "-1") (.string "mint") [] (by decide!)⟩

/-- C4.  When the balance query of a transfer succeeds and the parsed amount is greater than
the queried balance, the transfer rejects with `'insufficient-balance'`; the log then holds the
calls of the balance query and nothing more, so no instruction is built and no transaction is
sent.  This holds for `solTransfer` and for `Token.transfer`. -/
theorem transfer_rejects_insufficient_balance (self : Token) (w : World)
    (toAddress amount tokenAddress : JSValue) (log : List Call) :
    (∀ balance log1, SolanaWeb3.getSolBalance w log = (.ok balance, log1) →
        (JSValue.parseFloat amount).gt balance = true →
        SolanaWeb3.solTransfer w toAddress amount log
            = (.error (.str "insufficient-balance"), log1)
          ∧ log1 = log ++ [Call.getBalance w.publicKey])
      ∧ (∀ balance log1,
          self.getBalance w (self.tokenAddress.or tokenAddress) log = (.ok balance, log1) →
          (JSValue.parseFloat amount).gt balance = true →
          self.transfer w toAddress amount tokenAddress log
              = (.error (.str "insufficient-balance"), log1)
            ∧ ∃ ext, log1 = log ++ ext ∧ ∀ c ∈ ext, c.isTransaction = false) :=
  ⟨fun balance log1 hbal h => solTransfer_insufficient w toAddress amount log log1 balance hbal h,
    fun balance log1 hbal h =>
      Token.transfer_insufficient self w toAddress amount tokenAddress log log1 balance hbal h⟩

/-- C4 in a world where the wallet holds 5 SOL and 5 tokens, for the amount `6`. -/
theorem transfer_rejects_insufficient_balance_witness :
    SolanaWeb3.solTransfer (World.accepting 5000000000 ⟨"5000", 3, 5 * 2 ^ 1074, "5"⟩)
        (.string "recipient") (.string "6") []
        = (.error (.str "insufficient-balance"), [Call.getBalance (some ⟨"sender"⟩)])
      ∧ (Token.transfer ⟨.undefined, none⟩ (World.accepting 5000000000 ⟨"5000", 3, 5 * 2 ^ 1074, "5"⟩)
          (.string "recipient") (.string "6") (.string "mint") []).1
        = .error (.str "insufficient-balance") :=
  have h := transfer_rejects_insufficient_balance ⟨.undefined, none⟩
    (World.accepting 5000000000 ⟨"5000", 3, 5 * 2 ^ 1074, "5"⟩)
    (.string "recipient") (.string "6") (.string "mint") []
  ⟨(h.1 (JSNumber.ofNat 5) [Call.getBalance (some ⟨"sender"⟩)] (by decide!) (by decide!)).1,
    congrArg Prod.fst (h.2 (JSNumber.ofNat 5)
      [Call.newPublicKey (.string "mint"), Call.newPublicKey (.string "mint"),
        Call.getAssociatedTokenAddress ⟨"mint"⟩ (some ⟨"sender"⟩),
        Call.getTokenAccountBalance ⟨"mint/sender"⟩] (by decide!) (by decide!)).1⟩

/-- C5.  The method `transfer` returns the promise of `solTransfer(toAddress, amount)` when the
token address is falsy (absent included) or loosely equal to `'SOL'`, and the promise of
`tokenTransfer(toAddress, amount, tokenAddress)` otherwise; it never returns the
`Error('invalid-token-address')` of its third branch. -/
theorem transfer_dispatch (self : SolanaWeb3) (w : World)
    (toAddress amount tokenAddress : JSValue) :
    self.transfer w toAddress amount tokenAddress =
        (if tokenAddress.truthy = false ∨ tokenAddress.looseEqString "SOL" = true then
          .promise (SolanaWeb3.solTransfer w toAddress amount)
        else .promise (self.tokenTransfer w toAddress amount tokenAddress))
      ∧ ∀ message, self.transfer w toAddress amount tokenAddress ≠ .error message := by
  refine ⟨transfer_eq self w toAddress amount tokenAddress, ?_⟩
  intro message
  rw [transfer_eq]
  split <;> simp

/-- C6: the code departs from the claim.  For every session and every signature,
`getTransactionUrl` throws a `TypeError`: it reads `this.cluster.explorer`, and the class has
no property `cluster` (the descriptor is kept in `connectedCluster`). -/
theorem getTransactionUrl_throws (self : SolanaWeb3) (signature : String) :
    self.getTransactionUrl signature = .error .typeError
      ∧ (SolanaWeb3.construct "devnet").getTransactionUrl "5VERv8NMvzbJMEkV8xnrLkEaWRtSz9CosKDYjCJjBRnbJLgp8uirBgmQpjKhoR4tjF3ZpRzrFmBV6UjKdiSZkQUW"
          = .error .typeError := by
  constructor
  · unfold SolanaWeb3.getTransactionUrl SolanaWeb3.descriptorField
    cases self.connectedCluster <;> rfl
  · decide

/-- C7: the code departs from the claim.  With the registry loaded but not listing the token,
or not loaded yet, a failed `getTokenAccountBalance` makes `getInfo` throw a `TypeError`
instead of returning a zero balance; the zero balance is returned only for a listed token. -/
theorem Token.getInfo_fallback_throws :
    (Token.getInfo ⟨.undefined, some (fun s => if s = "mint" then some ⟨"mint", 6⟩ else none)⟩
        (World.withoutTokenAccount 0) (.string "other") []).1 = .error .typeError
      ∧ (Token.getInfo ⟨.undefined, none⟩
          (World.withoutTokenAccount 0) (.string "mint") []).1 = .error .typeError
      ∧ (Token.getInfo ⟨.undefined, some (fun s => if s = "mint" then some ⟨"mint", 6⟩ else none)⟩
          (World.withoutTokenAccount 0) (.string "mint") []).1
        = .ok { amount := "0", uiAmount := JSNumber.ofNat 0, uiAmountString := "0", decimals := 6,
                tokenAccount := "mint/sender", tokenAddress := .string "mint" } := by
  decide!

/-- C8: the code departs from the claim.  With a balance of 5 SOL, the amount `NaN` passes
both comparisons, and so does the text `"5abc"`, which `parseFloat` reads as `5`; in both
cases a system transfer with `lamports = NaN` is built and sent. -/
theorem solTransfer_sends_invalid_amount :
    SolanaWeb3.solTransfer (World.accepting 5000000000 ⟨"0", 0, 0, "0"⟩)
        (.string "recipient") (.number .nan) []
        = (.ok "signature",
            [Call.getBalance (some ⟨"sender"⟩), Call.newPublicKey (.string "recipient"),
             Call.build (.systemTransfer (some ⟨"sender"⟩) ⟨"recipient"⟩ .nan),
             Call.sendTransaction ⟨[.systemTransfer (some ⟨"sender"⟩) ⟨"recipient"⟩ .nan]⟩])
      ∧ JSValue.parseFloat (.string "5abc") = JSNumber.ofNat 5
      ∧ SolanaWeb3.solTransfer (World.accepting 5000000000 ⟨"0", 0, 0, "0"⟩)
        (.string "recipient") (.string "5abc") []
        = (.ok "signature",
            [Call.getBalance (some ⟨"sender"⟩), Call.newPublicKey (.string "recipient"),
             Call.build (.systemTransfer (some ⟨"sender"⟩) ⟨"recipient"⟩ .nan),
             Call.sendTransaction ⟨[.systemTransfer (some ⟨"sender"⟩) ⟨"recipient"⟩ .nan]⟩]) := by
  decide!

/-- C9.  The helper `isNumeric` returns `true` for every value that is not a string; for a
string it returns `true` exactly when both `Number(val)` and `parseFloat(val)` are NaN, hence
`false` for every string that either of them reads as a number. -/
theorem Utils.isNumeric_polarity (val : JSValue) :
    (val.typeof ≠ "string" → Utils.isNumeric val = true)
      ∧ (∀ s, val = .string s →
          (Utils.isNumeric val = true ↔
            (stringToNumberText s.toList).toNumber = .nan
              ∧ (parseFloatText s.toList).toNumber = .nan))
      ∧ (∀ s, val = .string s →
          ((stringToNumberText s.toList).toNumber ≠ .nan
              ∨ (parseFloatText s.toList).toNumber ≠ .nan) →
          Utils.isNumeric val = false) := by
  have hiff : ∀ s, Utils.isNumeric (.string s) = true ↔
      (stringToNumberText s.toList).toNumber = .nan
        ∧ (parseFloatText s.toList).toNumber = .nan := by
    intro s
    rw [Utils.isNumeric_eq]
    simp
  refine ⟨?_, ?_, ?_⟩
  · intro h
    rw [Utils.isNumeric_eq]
    cases val <;> simp [JSValue.typeof] at h ⊢
  · intro s hs
    subst hs
    exact hiff s
  · intro s hs h
    subst hs
    cases hb : Utils.isNumeric (.string s) with
    | false => rfl
    | true =>
      have h2 := (hiff s).1 hb
      rcases h with h | h
      · exact absurd h2.1 h
      · exact absurd h2.2 h

/-- C9 at the number `12`, at the strings `"12"` and `"12px"`, which parse, and at `"abc"`. -/
theorem Utils.isNumeric_polarity_witness :
    Utils.isNumeric (.number (JSNumber.ofNat 12)) = true
      ∧ Utils.isNumeric (.string "12") = false
      ∧ Utils.isNumeric (.string "12px") = false
      ∧ Utils.isNumeric (.string "abc") = true :=
  ⟨(Utils.isNumeric_polarity (.number (JSNumber.ofNat 12))).1 (by decide),
    (Utils.isNumeric_polarity (.string "12")).2.2 "12" rfl (Or.inl (by decide!)),
    (Utils.isNumeric_polarity (.string "12px")).2.2 "12px" rfl (Or.inr (by decide!)),
    ((Utils.isNumeric_polarity (.string "abc")).2.1 "abc" rfl).2 ⟨by decide!, by decide!⟩⟩

/-- C10: the code departs from the claim.  Each descriptor has its own name as node id, but the
host of `mainnet-beta` is the devnet endpoint and the host of `devnet` is the mainnet-beta
endpoint (with a trailing slash); only `testnet` has its own endpoint. -/
theorem clusters_hosts :
    (SolanaWeb3.clusters "mainnet-beta").map (fun c => (c.node, c.host))
        = some ("mainnet-beta", "https://api.devnet.solana.com")
      ∧ (SolanaWeb3.clusters "testnet").map (fun c => (c.node, c.host))
        = some ("testnet", "https://api.testnet.solana.com")
      ∧ (SolanaWeb3.clusters "devnet").map (fun c => (c.node, c.host))
        = some ("devnet", "https://api.mainnet-beta.solana.com/") := by
  decide

end SolanaWeb3Js
